import Mathlib

set_option maxHeartbeats 1000000

namespace Oav

/-- JavaScript-style runtime value: the JSON values plus the undefined value.
`undefined` stands both for an absent object key and for a stored undefined, which
compare the same way in the source (`x === undefined`). -/
inductive VarValue where
  | undefined
  | str (s : String)
  | num (n : Int)
  | bool (b : Bool)
  | arr (xs : List VarValue)
  | obj (fields : List (String × VarValue))
deriving Repr

/-- JavaScript truthiness of a value, as used by `if (x)` checks in the source. -/
def VarValue.truthy : VarValue → Bool
  | .undefined => false
  | .str s => !s.isEmpty
  | .num n => n != 0
  | .bool b => b
  | .arr _ => true
  | .obj _ => true

/-- Lookup in a JavaScript-object-like association list: first binding wins
(keys are unique by construction, `jsInsert` keeps them so). -/
def jsLookup (m : List (String × α)) (k : String) : Option α :=
  (m.find? (fun p => p.1 = k)).map (fun p => p.2)

/-- Assignment `m[k] = v` on a JavaScript object: overwrite in place when the
key exists (order preserved), append otherwise. -/
def jsInsert (m : List (String × α)) (k : String) (v : α) : List (String × α) :=
  if (m.find? (fun p => p.1 = k)).isSome then
    m.map (fun p => if p.1 = k then (k, v) else p)
  else
    m ++ [(k, v)]

/-- Object-property read with JavaScript semantics: an absent key reads as
undefined. -/
def jsGet (m : List (String × VarValue)) (k : String) : VarValue :=
  (jsLookup m k).getD .undefined

/-- Deduplicate keeping the first occurrence of each element, the order a
JavaScript `new Set(list)` iterates in. -/
def dedupFirst (l : List String) : List String :=
  l.foldl (fun acc x => if x ∈ acc then acc else acc ++ [x]) []

/-- A declared variable (apiScenarioTypes.ts `Variable`). The source is a
tagged union over bool/int/string/secureString/array/object/secureObject;
here `type` carries the tag as the string the source compares against
(`v.type === "string"` and so on), which also accommodates the ARM casing
"securestring" that flows through the same untyped checks. `varPrefix` is the
source's `prefix` field (renamed, `prefix` is not usable as a Lean field). -/
structure Variable where
  type : String
  value : Option VarValue := none
  varPrefix : Option String := none
  patches : Option (List Unit) := none
deriving Repr

/-- Structural JSON-patch operations are an external engine's data
(diffUtils/json-merge-patch are outside the modelled core); each operation is
opaque here. -/
abbrev JsonPatchOp := Unit

/-- apiScenarioTypes.ts `VariableScope`: variables plus the required/secret
name lists. -/
structure VariableScope where
  «variables» : List (String × Variable) := []
  requiredVariables : List String := []
  secretVariables : List String := []
deriving Repr

/-! Placeholder tokens.  The syntax is `$(identifier)` with identifier
matching `[A-Za-z_$][A-Za-z0-9_]*` (source `variableRegex`). -/

/-- First character of a placeholder identifier: `[A-Za-z_$]`. -/
def isIdentFirst (c : Char) : Bool :=
  (c ≥ 'A' && c ≤ 'Z') || (c ≥ 'a' && c ≤ 'z') || c = '_' || c = '$'

/-- Later characters of a placeholder identifier: `[A-Za-z0-9_]`. -/
def isIdentRest (c : Char) : Bool :=
  (c ≥ 'A' && c ≤ 'Z') || (c ≥ 'a' && c ≤ 'z') || (c ≥ '0' && c ≤ '9') || c = '_'

/-- Longest identifier-rest run at the front of a character list, and what
follows it. -/
def takeIdentRest : List Char → List Char × List Char
  | [] => ([], [])
  | c :: cs =>
    if isIdentRest c then
      let (i, r) := takeIdentRest cs
      (c :: i, r)
    else
      ([], c :: cs)

/-- Scan a character list for `$(ident)` tokens, collecting the identifiers
in order of occurrence (the `g`-flagged `variableRegex` loop of
`isSecretVariable`). `fuel` bounds the recursion; callers pass the list's
length. -/
def scanTokens (fuel : Nat) : List Char → List String
  | [] => []
  | c :: cs =>
    match fuel with
    | 0 => []
    | fuel + 1 =>
      match c, cs with
      | '$', '(' :: rest =>
        match rest with
        | r0 :: rrest =>
          if isIdentFirst r0 then
            let (i, after) := takeIdentRest rrest
            match after with
            | ')' :: tail => String.mk (r0 :: i) :: scanTokens fuel tail
            | _ => scanTokens fuel cs
          else scanTokens fuel cs
        | [] => []
      | _, _ => scanTokens fuel cs

/-- All `$(ident)` identifiers occurring in a string. -/
def extractTokens (s : String) : List String :=
  scanTokens (s.length + 1) s.data

/-! The hierarchical variable environment.  variableEnv.ts is not among the
given sources, so the environment is modelled from the spec (section 4.1):
a chain of layers, lookup walking innermost to outermost, writes confined to
the innermost layer, `$(name)` substitution, and prefix materialization.
The head of `layers` is the innermost (current) layer. -/
structure VariableEnv where
  layers : List (List (String × Variable))
deriving Repr

/-- Modelled from the spec: `new VariableEnv()` is a single empty layer. -/
def VariableEnv.new : VariableEnv := ⟨[[]]⟩

/-- Modelled from the spec: `new VariableEnv(parent)` layers a fresh empty
innermost scope over the parent. -/
def VariableEnv.child (parent : VariableEnv) : VariableEnv := ⟨[] :: parent.layers⟩

/-- Modelled from the spec: `get(name)` returns the nearest definition walking
from the current layer outwards. -/
def VariableEnv.get (env : VariableEnv) (name : String) : Option Variable :=
  env.layers.findSome? (fun l => jsLookup l name)

/-- Modelled from the spec: `set(name, v)` binds or overwrites in the current
(innermost) layer only. -/
def VariableEnv.set (env : VariableEnv) (name : String) (v : Variable) : VariableEnv :=
  match env.layers with
  | [] => ⟨[[(name, v)]]⟩
  | l :: rest => ⟨jsInsert l name v :: rest⟩

/-- Modelled from the spec: `setBatch` binds each given variable in the current
layer. -/
def VariableEnv.setBatch (env : VariableEnv) (vars : List (String × Variable)) : VariableEnv :=
  vars.foldl (fun e p => e.set p.1 p.2) env

/-- Modelled from the spec: `setBatchEnv` binds the caller-supplied top-level
environment strings as plain string variables in the current layer. -/
def VariableEnv.setBatchEnv (env : VariableEnv) (vars : List (String × String)) : VariableEnv :=
  vars.foldl (fun e p => e.set p.1 { type := "string", value := some (VarValue.str p.2) }) env

/-- Modelled from the spec: the current layer's variables, what the runner's
`env.getVariables()` iterates. -/
def VariableEnv.getVariables (env : VariableEnv) : List (String × Variable) :=
  env.layers.headD []

/-- One substitution pass over a character list: each `$(ident)` whose
identifier resolves to a string-valued variable is replaced by that value, any
other token is left verbatim (deferred resolution; the spec's mandatory-mode
failure is not exercised by any claim). `fuel` bounds recursion. -/
def substCore (env : VariableEnv) (fuel : Nat) : List Char → List Char
  | [] => []
  | c :: cs =>
    match fuel with
    | 0 => c :: cs
    | fuel + 1 =>
      match c, cs with
      | '$', '(' :: r0 :: rrest =>
        if isIdentFirst r0 then
          let (i, after) := takeIdentRest rrest
          match after with
          | ')' :: tail =>
            let ident := String.mk (r0 :: i)
            (match env.get ident with
             | some v =>
               match v.value with
               | some (VarValue.str s) => s.data ++ substCore env fuel tail
               | _ => '$' :: '(' :: (r0 :: i) ++ ')' :: substCore env fuel tail
             | none => '$' :: '(' :: (r0 :: i) ++ ')' :: substCore env fuel tail)
          | _ => '$' :: substCore env fuel cs
        else '$' :: substCore env fuel cs
      | _, _ => c :: substCore env fuel cs

/-- Substitute `$(name)` tokens inside a string against `env`. -/
def resolveString (env : VariableEnv) (s : String) : String :=
  String.mk (substCore env (s.length + 1) s.data)

/-- A string that consists of exactly one `$(ident)` token. -/
def fullToken? (s : String) : Option String :=
  match s.data with
  | '$' :: '(' :: r0 :: rest =>
    if isIdentFirst r0 then
      let (i, after) := takeIdentRest rest
      match after with
      | [')'] => some (String.mk (r0 :: i))
      | _ => none
    else none
  | _ => none

mutual
/-- Modelled from the spec: deep placeholder resolution over a value. A string
that is exactly one token substitutes the referenced value natively; embedded
tokens substitute as strings; containers resolve recursively. -/
def resolveVarValue (env : VariableEnv) : VarValue → VarValue
  | .str s =>
    (match fullToken? s with
     | some ident =>
       match env.get ident with
       | some v =>
         match v.value with
         | some w => w
         | none => .str (resolveString env s)
       | none => .str (resolveString env s)
     | none => .str (resolveString env s))
  | .arr xs => .arr (resolveVarValueList env xs)
  | .obj fs => .obj (resolveVarValueFields env fs)
  | v => v

def resolveVarValueList (env : VariableEnv) : List VarValue → List VarValue
  | [] => []
  | x :: xs => resolveVarValue env x :: resolveVarValueList env xs

def resolveVarValueFields (env : VariableEnv) :
    List (String × VarValue) → List (String × VarValue)
  | [] => []
  | (k, x) :: xs => (k, resolveVarValue env x) :: resolveVarValueFields env xs
end

/-- Modelled from the spec: `stepEnv.resolve()` resolves every variable of the
layered environment in place (each value substituted against the whole
environment). -/
def VariableEnv.resolveAll (env : VariableEnv) : VariableEnv :=
  ⟨env.layers.map (fun l =>
    l.map (fun p => (p.1, { p.2 with value := p.2.value.map (resolveVarValue env) })))⟩

/-- Modelled from the spec: `getRequiredString(name)` resolves `name` and fails
with a missing-variable error when it is absent or not a string scalar. -/
def VariableEnv.getRequiredString (env : VariableEnv) (name : String) :
    Except String String :=
  match env.get name with
  | some v =>
    match v.value with
    | some (VarValue.str s) => Except.ok (resolveString env s)
    | _ => Except.error ("Required variable is not found in env: " ++ name)
  | none => Except.error ("Required variable is not found in env: " ++ name)

/-- Modelled from the spec: `getRandomString` (util/utils.ts is not among the
given sources) yields a fresh value per call. Freshness is modelled by the
runner state's counter: call number n yields a string of n `x` characters, so
distinct calls yield distinct strings. -/
def getRandomString (n : Nat) : String := String.mk (List.replicate n 'x')

/-- Whether `generateValueFromPrefix` materializes this variable: a string or
secureString with a prefix and no value (runner source lines 161-162). -/
def needsGen (v : Variable) : Bool :=
  (v.type = "string" || v.type = "secureString") && v.varPrefix.isSome && v.value.isNone

/-- One pass of the runner's `generateValueFromPrefix` loop over a layer,
threading the random counter. -/
def genLayer : List (String × Variable) → Nat → List (String × Variable) × Nat
  | [], c => ([], c)
  | (n, v) :: rest, c =>
    if needsGen v then
      let v' := { v with value := some (VarValue.str (v.varPrefix.getD "" ++ getRandomString c)) }
      let (rest', c') := genLayer rest (c + 1)
      ((n, v') :: rest', c')
    else
      let (rest', c') := genLayer rest c
      ((n, v) :: rest', c')

/-- ApiScenarioRunner.generateValueFromPrefix (runner source lines 159-167):
for every string/secureString variable of `env.getVariables()` that has a
prefix and no value, assign `value := prefix + getRandomString()`. -/
def generateValueFromPrefix (env : VariableEnv) (c : Nat) : VariableEnv × Nat :=
  match env.layers with
  | [] => (env, c)
  | l :: rest =>
    let (l', c') := genLayer l c
    (⟨l' :: rest⟩, c')

/-! Swagger-side data the compiler consumes: operations and their parameters
(swaggerTypes.ts, reduced to the fields this code reads). -/

/-- A declared operation parameter (swaggerTypes.ts `Parameter`, the fields the
scenario code reads). `paramIn` is the source's `in` field (a Lean keyword).
Parameters are taken as already dereferenced: `jsonLoader.resolveRefObj` is
the identity here (the json loader is an external collaborator). -/
structure OpParameter where
  name : String := ""
  paramIn : String := ""
  required : Bool := false
deriving Repr

/-- A swagger operation (the fields the scenario code reads). `_method` and
`_pathTemplate` flatten the source's `operation._method` and
`operation._path._pathTemplate`. -/
structure Operation where
  operationId : String := ""
  parameters : Option (List OpParameter) := none
  _method : String := "get"
  _pathTemplate : String := ""
deriving Repr

/-- An output-variable declaration: the code reads only its optional `type`
(`fromRequest`/`fromResponse` are routed to the external client untouched). -/
structure OutputVariableDef where
  type : Option String := none
  fromRequest : String := ""
  fromResponse : String := ""
deriving Repr

/-- A parameter declaration of an ARM template payload. -/
structure ArmTemplateParamDef where
  type : String := ""
  defaultValue : Option VarValue := none
deriving Repr

/-- One environment-variable entry of a deployment-script resource: exactly one
of `value`/`secureValue` is set by the compiler. -/
structure DeploymentScriptEnvVar where
  name : String := ""
  value : Option String := none
  secureValue : Option String := none
deriving Repr

/-- Properties of a deployment-script ARM resource (the fields the compiler
writes). -/
structure ArmResourceProperties where
  azPowerShellVersion : Option String := none
  azCliVersion : Option String := none
  scriptContent : Option String := none
  arguments : Option String := none
  environmentVariables : Option (List DeploymentScriptEnvVar) := none
deriving Repr

/-- An ARM resource (apiScenarioTypes.ts `ArmResource` /
`ArmDeploymentScriptResource`). -/
structure ArmResource where
  name : String := ""
  type : String := ""
  kind : Option String := none
  location : Option String := none
  properties : ArmResourceProperties := {}
deriving Repr

/-- An ARM template payload: parameter declarations, outputs, resources. -/
structure ArmTemplatePayload where
  parameters : Option (List (String × ArmTemplateParamDef)) := none
  outputs : Option (List (String × OutputVariableDef)) := none
  resources : Option (List ArmResource) := none
deriving Repr

/-! Compiled steps (apiScenarioTypes.ts `StepRestCall` / `StepArmTemplate`).
Both extend `VariableScope` (the source's `StepBase` spread). -/

/-- A compiled REST-call step. `_resolvedParameters` (a runtime cache the
runner writes onto the step) is not modelled: nothing in the embedded code
reads it back. -/
structure StepRestCall extends VariableScope where
  step : String
  description : Option String := none
  operationId : String := ""
  operation : Operation := {}
  exampleFile : Option String := none
  parameters : List (String × VarValue) := []
  responses : List (String × VarValue) := []
  responseAssertion : Option VarValue := none
  outputVariables : List (String × OutputVariableDef) := []
  externalReference : Bool := false
  isPrepareStep : Bool := false
  isCleanUpStep : Bool := false
deriving Repr

/-- A compiled ARM-template-deployment step. -/
structure StepArmTemplate extends VariableScope where
  step : String
  description : Option String := none
  armTemplate : String := ""
  armTemplatePayload : ArmTemplatePayload := {}
  outputVariables : List (String × OutputVariableDef) := []
  isPrepareStep : Bool := false
  isCleanUpStep : Bool := false
deriving Repr

/-- A compiled step: the source's tagged union discriminated by `type`
("restCall" / "armTemplateDeployment"). -/
inductive Step where
  | restCall (s : StepRestCall)
  | armTemplateDeployment (s : StepArmTemplate)
deriving Repr

/-- The step's identity name (`step.step`). -/
def Step.name : Step → String
  | .restCall s => s.step
  | .armTemplateDeployment s => s.step

/-- The step's own variable scope. -/
def Step.varScope : Step → VariableScope
  | .restCall s => s.toVariableScope
  | .armTemplateDeployment s => s.toVariableScope

/-- The step's output-variable declarations. -/
def Step.outputVariables : Step → List (String × OutputVariableDef)
  | .restCall s => s.outputVariables
  | .armTemplateDeployment s => s.outputVariables

/-- Mark a step as a prepare step (`step.isPrepareStep = true`). -/
def Step.markPrepare : Step → Step
  | .restCall s => .restCall { s with isPrepareStep := true }
  | .armTemplateDeployment s => .armTemplateDeployment { s with isPrepareStep := true }

/-- Mark a step as a clean-up step (`step.isCleanUpStep = true`). -/
def Step.markCleanUp : Step → Step
  | .restCall s => .restCall { s with isCleanUpStep := true }
  | .armTemplateDeployment s => .armTemplateDeployment { s with isCleanUpStep := true }

/-- A compiled scenario (apiScenarioTypes.ts `Scenario`). The source also
stores a `_scenarioDef` back-reference to the owning definition; the owning
`ScenarioDefinition` is passed alongside the scenario wherever the runner
would follow that reference, to keep the structures acyclic. -/
structure Scenario extends VariableScope where
  scenario : String
  description : String := ""
  shareScope : Bool := true
  steps : List Step := []
deriving Repr

/-- A compiled scenario definition (apiScenarioTypes.ts `ScenarioDefinition`). -/
structure ScenarioDefinition extends VariableScope where
  scope : String := "ResourceGroup"
  prepareSteps : List Step := []
  scenarios : List Scenario := []
  _filePath : String := ""
  _swaggerFilePaths : List String := []
  cleanUpSteps : List Step := []
deriving Repr

/-! Raw declarative input (apiScenarioTypes.ts `Raw*`), as the external YAML
loader delivers it. -/

/-- A raw variable declaration: the string shorthand or a full `Variable`. -/
inductive RawVarDecl where
  | str (s : String)
  | decl (v : Variable)
deriving Repr

/-- `RawVariableScope.variables`, an optional name-keyed map. -/
abbrev RawVariables := List (String × RawVarDecl)

/-- A raw operation-reference step (`RawStepOperation`). -/
structure RawStepOperation where
  step : Option String := none
  description : Option String := none
  outputVariables : Option (List (String × OutputVariableDef)) := none
  «variables» : Option RawVariables := none
  operationId : String
  readmeTag : Option String := none
  parameters : Option (List (String × VarValue)) := none
  responses : Option VarValue := none
deriving Repr

/-- A raw example-fixture step (`RawStepExample`). -/
structure RawStepExample where
  step : Option String := none
  description : Option String := none
  outputVariables : Option (List (String × OutputVariableDef)) := none
  «variables» : Option RawVariables := none
  exampleFile : String
  requestUpdate : Option (List JsonPatchOp) := none
  responseUpdate : Option (List JsonPatchOp) := none
deriving Repr

/-- A raw ARM-template step (`RawStepArmTemplate`). -/
structure RawStepArmTemplate where
  step : Option String := none
  description : Option String := none
  outputVariables : Option (List (String × OutputVariableDef)) := none
  «variables» : Option RawVariables := none
  armTemplate : String
deriving Repr

/-- A raw deployment-script step (`RawStepArmScript`). -/
structure RawStepArmScript where
  step : Option String := none
  description : Option String := none
  outputVariables : Option (List (String × OutputVariableDef)) := none
  «variables» : Option RawVariables := none
  armDeploymentScript : String
  arguments : Option String := none
  environmentVariables : Option (List (String × String)) := none
deriving Repr

/-- A raw step: the union `loadStep` dispatches over by property presence
(`"operationId" in rawStep`, `"exampleFile" in rawStep`, ...). -/
inductive RawStep where
  | operation (r : RawStepOperation)
  | example (r : RawStepExample)
  | armTemplate (r : RawStepArmTemplate)
  | armScript (r : RawStepArmScript)
deriving Repr

/-- A raw scenario (`RawScenario`). -/
structure RawScenario where
  scenario : Option String := none
  description : Option String := none
  shareScope : Option Bool := none
  «variables» : Option RawVariables := none
  steps : List RawStep := []
deriving Repr

/-- A raw scenario definition (`RawScenarioDefinition`). -/
structure RawScenarioDefinition where
  scope : Option String := none
  «variables» : Option RawVariables := none
  prepareSteps : Option (List RawStep) := none
  cleanUpSteps : Option (List RawStep) := none
  scenarios : List RawScenario := []
deriving Repr

/-- The content of an example fixture file after `JSON.parse` (SwaggerExample:
optional operationId, parameters, responses). -/
structure ExampleFileContent where
  operationId : Option String := none
  parameters : List (String × VarValue) := []
  responses : List (String × VarValue) := []
deriving Repr

/-! The scenario compiler (ApiScenarioLoader). -/

/-- The loader's external collaborators, passed in rather than built by the
(external) `initialize`/`loadSwaggers` phase: the operation and pinned-version
indices, the reverse fixture-to-operation index, the additional per-readme-tag
indices, the file loader's parsed contents, and the external JSON-patch /
merge-patch / body-transformation engines. -/
structure LoaderEnv where
  operationsMap : List (String × Operation) := []
  apiVersionsMap : List (String × String) := []
  exampleToOperation : List (String × List (String × String)) := []
  additionalOperationsMap : List (String × List (String × Operation)) := []
  additionalApiVersionsMap : List (String × List (String × String)) := []
  exampleFiles : List (String × ExampleFileContent) := []
  armTemplateFiles : List (String × ArmTemplatePayload) := []
  scriptFiles : List (String × String) := []
  swaggerFilePaths : List String := []
  includeOperation : Bool := true
  jsonPatchApply : VarValue → List JsonPatchOp → Except String VarValue := fun v _ => Except.ok v
  jsonPatchApplyMap : List (String × VarValue) → List JsonPatchOp →
    Except String (List (String × VarValue)) := fun m _ => Except.ok m
  jsonMergePatchGenerate : VarValue → VarValue → VarValue := fun _ _ => VarValue.obj []
  jsonMergeApply : VarValue → VarValue → VarValue := fun b _ => b
  resourceToResponse : VarValue → VarValue := id

/-- `pathDirName`, modelled as everything before the last slash, "." when
there is none (the openapi-tools-common path utilities are external
collaborators). -/
def pathDirName (p : String) : String :=
  match p.data.reverse.dropWhile (fun c => c ≠ '/') with
  | '/' :: rest => String.mk rest.reverse
  | _ => "."

/-- `pathJoin`, modelled as slash concatenation. -/
def pathJoin (a b : String) : String := a ++ "/" ++ b

/-- ApiScenarioContext (loader source lines 355-362). `stepTracking` keeps the
tracked step names; the map's step values are never read back, so only the
key set is modelled. -/
structure Ctx where
  stepTracking : List String := []
  scenarioDef : ScenarioDefinition
  scenario : Option Scenario := none
  scenarioIndex : Option Nat := none
  stepIndex : Nat := 0
  stage : Option String := none
deriving Repr

/-- The `variableScope` alias the loader mutates: `ctx.scenario ??
ctx.scenarioDef`. -/
def Ctx.varScope (ctx : Ctx) : VariableScope :=
  match ctx.scenario with
  | some sc => sc.toVariableScope
  | none => ctx.scenarioDef.toVariableScope

/-- Write back through that alias: the scenario's scope when a scenario is
current, else the definition's. -/
def Ctx.setVarScope (ctx : Ctx) (vs : VariableScope) : Ctx :=
  match ctx.scenario with
  | some sc => { ctx with scenario := some { sc with toVariableScope := vs } }
  | none => { ctx with scenarioDef := { ctx.scenarioDef with toVariableScope := vs } }

/-- The synthesized step-name prefix `${ctx.scenarioIndex ?? ctx.stage}`. -/
def Ctx.namePrefix (ctx : Ctx) : String :=
  match ctx.scenarioIndex with
  | some i => toString i
  | none => ctx.stage.getD "undefined"

/-- convertVariables (loader source lines 1031-1067): promote string
shorthands, collect required names (string kinds with neither value nor
prefix), accept container types with patches, reject other value-less
declarations, and collect secret names. -/
def convertVariables (rawVariables : Option RawVariables) : Except String VariableScope :=
  (rawVariables.getD []).foldlM (fun (result : VariableScope) kv => do
    let (key, rawVal) := kv
    match rawVal with
    | RawVarDecl.str s =>
      pure { result with
        «variables» := jsInsert result.variables key { type := "string", value := some (.str s) } }
    | RawVarDecl.decl v => do
      let result := { result with «variables» := jsInsert result.variables key v }
      let result ←
        if v.value.isNone then
          if v.type = "string" || v.type = "secureString" then
            if v.value.isNone && v.varPrefix.isNone then
              pure { result with requiredVariables := result.requiredVariables ++ [key] }
            else
              pure result
          else if (v.type = "object" || v.type = "secureObject" || v.type = "array")
              && v.patches.isSome then
            pure result
          else
            Except.error ("Only string and secureString type is supported in environment variables, please specify value for: " ++ key)
        else
          pure result
      if v.type = "secureString" || v.type = "secureObject" then
        pure { result with secretVariables := result.secretVariables ++ [key] }
      else
        pure result) {}

/-- declareOutputVariables (loader source lines 1069-1083): declare each
output name not already present (default type string), and record secure-typed
outputs as secrets. -/
def declareOutputVariables (outputVariables : List (String × OutputVariableDef))
    (scope : VariableScope) : VariableScope :=
  outputVariables.foldl (fun scope kv =>
    let (key, decl) := kv
    let scope :=
      if (jsLookup scope.variables key).isNone then
        { scope with «variables» := jsInsert scope.variables key { type := decl.type.getD "string" } }
      else scope
    if decl.type = some "secureString" || decl.type = some "securestring"
        || decl.type = some "secureObject" then
      { scope with secretVariables := scope.secretVariables ++ [key] }
    else scope) scope

/-- The `getVariable` closure of loadStepRestCall (source lines 673-704):
look the name up through the given scopes' variables, then through their
required lists (yielding a `$(name)` placeholder variable), then through the
names the definition's scope kind guarantees. -/
def getVariableIn (defScope : String) (scopes : List (Option VariableScope))
    (name : String) : Option Variable :=
  match scopes.findSome? (fun sc? => sc?.bind (fun sc => jsLookup sc.variables name)) with
  | some v => some v
  | none =>
    if scopes.any (fun sc? =>
        match sc? with
        | some sc => name ∈ sc.requiredVariables
        | none => false) then
      some { type := "string", value := some (.str ("$(" ++ name ++ ")")) }
    else if (defScope = "ResourceGroup"
          && (name = "subscriptionId" || name = "resourceGroupName" || name = "location"))
        || (defScope = "Subscription" && name = "subscriptionId") then
      some { type := "string", value := some (.str ("$(" ++ name ++ ")")) }
    else
      none

/-- The `requireVariable` closure (source lines 706-715): append the name to
the scenario's (if current) else the definition's required list unless already
present, skipping resourceGroupName under a ResourceGroup-scoped definition. -/
def requireVariableCtx (ctx : Ctx) (name : String) : Ctx :=
  if ctx.scenarioDef.scope = "ResourceGroup" && name = "resourceGroupName" then ctx
  else
    let vs := ctx.varScope
    if name ∈ vs.requiredVariables then ctx
    else ctx.setVarScope { vs with requiredVariables := vs.requiredVariables ++ [name] }

/-- pickParams (source lines 1024-1029), with `resolveRefObj` the identity. -/
def pickParams (operation : Operation) (location : String) : Option (List OpParameter) :=
  operation.parameters.map (fun ps => ps.filter (fun p => p.paramIn = location))

/-- getBodyParam (source lines 1019-1022). -/
def getBodyParam (operation : Operation) : Option OpParameter :=
  (pickParams operation "body").bind List.head?

/-- ApiScenarioLoader.applyPatches (source lines 853-883): the request-side
patch pass, the merge-patch projection of a body change onto non-error
response bodies for put/patch operations, and the response-side patch pass.
The JSON-patch, merge-patch and body-transformation engines are external and
enter through `LoaderEnv`. The source iterates the responses with an async
forEach whose callbacks it does not await; the effects are modelled as
completing in order. -/
def applyPatches (L : LoaderEnv) (step : StepRestCall) (rawStep : RawStepExample)
    (operation : Operation) : Except String StepRestCall := do
  let step ←
    match rawStep.requestUpdate with
    | none => pure step
    | some requestUpdate => do
      let bodyParam := getBodyParam operation
      let source := bodyParam.map (fun bp => jsGet step.parameters bp.name)
      let newParams ← L.jsonPatchApplyMap step.parameters requestUpdate
      let step := { step with parameters := newParams }
      if (operation._method = "put" || operation._method = "patch") && bodyParam.isSome then
        let target := jsGet step.parameters ((bodyParam.map OpParameter.name).getD "")
        let propertiesMergePatch := L.jsonMergePatchGenerate (source.getD .undefined) target
        let newResponses := step.responses.map (fun cr =>
          let (statusCode, response) := cr
          if statusCode < "400" then
            match response with
            | .obj fields =>
              let body := jsGet fields "body"
              if body.truthy then
                let body := L.resourceToResponse (L.jsonMergeApply body propertiesMergePatch)
                (statusCode, VarValue.obj (jsInsert fields "body" body))
              else (statusCode, response)
            | _ => (statusCode, response)
          else (statusCode, response))
        pure { step with responses := newResponses }
      else
        pure step
  match rawStep.responseUpdate with
  | none => pure step
  | some responseUpdate => do
    let newResponses ← L.jsonPatchApplyMap step.responses responseUpdate
    pure { step with responses := newResponses }

/-- ApiScenarioLoader.loadStepRestCall (source lines 651-851), over the union
of operation-reference and example-fixture raw steps. The json loader's
`resolveRefObj` is the identity (parameters arrive dereferenced), and
`templateGenerator.exampleParameterConvention` (templateGenerator.ts is not
among the given sources) is modelled as the identity on the compiled step:
the spec's fixture-step pipeline (section 4.2) assigns compilation no further
parameter changes after the api-version forcing and the patch passes. -/
def loadStepRestCall (L : LoaderEnv) (rawStep : RawStepOperation ⊕ RawStepExample)
    (ctx : Ctx) : Except String (StepRestCall × Ctx) := do
  let rawName : Option String :=
    match rawStep with
    | .inl r => r.step
    | .inr r => r.step
  match rawName with
  | some s =>
    if s ∈ ctx.stepTracking then
      Except.error ("Duplicated step name: " ++ s)
    else pure ()
  | none => pure ()
  let rawVars : Option RawVariables :=
    match rawStep with
    | .inl r => r.variables
    | .inr r => r.variables
  let vs ← convertVariables rawVars
  let step : StepRestCall := {
    toVariableScope := vs
    step := rawName.getD (ctx.namePrefix ++ "_" ++ toString ctx.stepIndex)
    description :=
      match rawStep with
      | .inl r => r.description
      | .inr r => r.description
    operationId := ""
    operation := {}
    parameters := []
    responses := []
    outputVariables :=
      (match rawStep with
       | .inl r => r.outputVariables
       | .inr r => r.outputVariables).getD [] }
  let ctx := { ctx with stepTracking :=
    if step.step ∈ ctx.stepTracking then ctx.stepTracking
    else ctx.stepTracking ++ [step.step] }
  match rawStep with
  | .inl r =>
    -- load operation step (source lines 717-789)
    let step := { step with operationId := r.operationId }
    let step :=
      if rawName.isNone then { step with step := step.step ++ "_" ++ r.operationId }
      else step
    let operationFound :=
      match r.readmeTag with
      | some tag =>
        (jsLookup L.additionalOperationsMap tag).bind (fun m => jsLookup m step.operationId)
      | none => jsLookup L.operationsMap step.operationId
    match operationFound with
    | none =>
      Except.error ("Operation not found for " ++ step.operationId ++ " in step " ++ step.step)
    | some operation => do
      let step := if r.readmeTag.isSome then { step with externalReference := true } else step
      let step := if L.includeOperation then { step with operation := operation } else step
      -- the raw variables loop (source lines 737-764)
      let step ← (r.variables.getD []).foldlM (fun (step : StepRestCall) nv => do
        let (vname, rawVal) := nv
        match rawVal with
        | RawVarDecl.str s =>
          let strVar : Variable := { type := "string", value := some (.str s) }
          pure { step with «variables» := jsInsert step.variables vname strVar }
        | RawVarDecl.decl val =>
          if (val.type = "object" || val.type = "secureObject" || val.type = "array")
              && val.patches.isSome then
            let inherited :=
              match ctx.scenario with
              | some sc =>
                getVariableIn ctx.scenarioDef.scope
                  [some sc.toVariableScope, some ctx.scenarioDef.toVariableScope] vname
              | none =>
                getVariableIn ctx.scenarioDef.scope
                  [some ctx.scenarioDef.toVariableScope] vname
            match inherited with
            | none =>
              Except.error ("Variable " ++ vname ++ " not found in step " ++ step.step)
            | some inheritedVar => do
              -- cloneDeep, then json-patch the inherited value in place; a
              -- Variable is always an object, so the source's typeof guard
              -- cannot fire
              let patched ← L.jsonPatchApply (inheritedVar.value.getD .undefined) (val.patches.getD [])
              let patchedVar := { inheritedVar with value := some patched }
              pure { step with «variables» := jsInsert step.variables vname patchedVar }
          else
            pure { step with «variables» := jsInsert step.variables vname val }) step
      -- the operation parameters loop (source lines 766-787)
      let stepCtx := (operation.parameters.getD []).foldl
        (fun (p : StepRestCall × Ctx) param =>
          let (step, ctx) := p
          if param.name = "api-version" then
            let pinned :=
              match r.readmeTag with
              | some tag =>
                (jsLookup L.additionalApiVersionsMap tag).bind
                  (fun m => jsLookup m step.operationId)
              | none => jsLookup L.apiVersionsMap step.operationId
            -- the source's non-null assertion: an absent entry stores undefined
            let newParams := jsInsert step.parameters "api-version" ((pinned.map VarValue.str).getD .undefined)
            ({ step with parameters := newParams }, ctx)
          else if (jsGet (r.parameters.getD []) param.name).truthy then
            let newParams := jsInsert step.parameters param.name (jsGet (r.parameters.getD []) param.name)
            ({ step with parameters := newParams }, ctx)
          else
            match getVariableIn ctx.scenarioDef.scope
                [some step.toVariableScope,
                 ctx.scenario.map Scenario.toVariableScope,
                 some ctx.scenarioDef.toVariableScope] param.name with
            | some v =>
              if param.paramIn = "body" then
                let newParams := jsInsert step.parameters param.name (v.value.getD .undefined)
                ({ step with parameters := newParams }, ctx)
              else
                let newParams := jsInsert step.parameters param.name (.str ("$(" ++ param.name ++ ")"))
                ({ step with parameters := newParams }, ctx)
            | none =>
              if param.paramIn = "path" || param.required then
                let newParams := jsInsert step.parameters param.name (.str ("$(" ++ param.name ++ ")"))
                ({ step with parameters := newParams }, requireVariableCtx ctx param.name)
              else (step, ctx))
        (step, ctx)
      let (step, ctx) := stepCtx
      let step := { step with responseAssertion := r.responses }
      pure (step, ctx)
  | .inr r => do
    -- load example step (source lines 790-849)
    let step := { step with exampleFile := some r.exampleFile }
    let exampleFilePath := pathJoin (pathDirName ctx.scenarioDef._filePath) r.exampleFile
    match jsLookup L.exampleFiles exampleFilePath with
    | none => Except.error ("Example file not found: " ++ exampleFilePath)
    | some exampleFileContent => do
      let stepOp ←
        match exampleFileContent.operationId with
        | some opId => do
          let step := { step with operationId := opId }
          match jsLookup L.operationsMap opId with
          | none =>
            Except.error ("Operation not found for " ++ opId ++ " in step " ++ step.step)
          | some operation =>
            let step := if L.includeOperation then { step with operation := operation } else step
            pure (step, operation)
        | none => do
          match jsLookup L.exampleToOperation exampleFilePath with
          | none =>
            Except.error ("Example file is not referenced by any operation: " ++ r.exampleFile)
          | some opMap =>
            if opMap.length > 1 then
              Except.error ("Example file is referenced by multiple operation: "
                ++ String.intercalate "," (opMap.map Prod.fst) ++ " " ++ r.exampleFile)
            else do
              let opId := ((opMap.head?.map Prod.fst)).getD "undefined"
              let step := { step with operationId := opId }
              let exampleName := jsLookup opMap opId
              match jsLookup L.operationsMap opId with
              | none =>
                Except.error ("Operation not found for " ++ opId ++ " in step " ++ step.step)
              | some operation =>
                let step :=
                  if L.includeOperation then { step with operation := operation } else step
                let newDescription :=
                  match step.description with
                  | some d => some d
                  | none => exampleName
                let step := { step with description := newDescription }
                pure (step, operation)
      let (step, operation) := stepOp
      let step := { step with parameters := exampleFileContent.parameters }
      -- force update api-version (source lines 839-842): only when the
      -- fixture supplies a truthy api-version value
      let step :=
        if (jsGet step.parameters "api-version").truthy then
          let pinned := ((jsLookup L.apiVersionsMap step.operationId).map VarValue.str).getD .undefined
          { step with parameters := jsInsert step.parameters "api-version" pinned }
        else step
      let step := { step with responses := exampleFileContent.responses }
      let step ← applyPatches L step r operation
      -- exampleParameterConvention: modelled as the identity (see above)
      pure (step, ctx)

/-- ApiScenarioLoader.loadStepArmTemplate (source lines 962-1016).
`templateGenerator.armTemplateParameterConvention` (templateGenerator.ts is
not among the given sources) only rewrites parameter values inside the step's
payload through the variable-lookup function; the spec's template-step section
assigns it no effect on scope state, so it is modelled as the identity. -/
def loadStepArmTemplate (L : LoaderEnv) (rawStep : RawStepArmTemplate) (ctx : Ctx) :
    Except String (StepArmTemplate × Ctx) := do
  let vs ← convertVariables rawStep.variables
  let step : StepArmTemplate := {
    toVariableScope := vs
    step := rawStep.step.getD (ctx.namePrefix ++ "_" ++ toString ctx.stepIndex ++ "_ArmTemplate")
    description := rawStep.description
    outputVariables := rawStep.outputVariables.getD []
    armTemplate := rawStep.armTemplate
    armTemplatePayload := {} }
  let filePath := pathJoin (pathDirName ctx.scenarioDef._filePath) step.armTemplate
  match jsLookup L.armTemplateFiles filePath with
  | none => Except.error ("ARM template file not found: " ++ filePath)
  | some payload => do
    let step := { step with armTemplatePayload := payload }
    let ctx ←
      match payload.parameters with
      | none => pure ctx
      | some params =>
        params.foldlM (fun (ctx : Ctx) pp => do
          let (paramName, pd) := pp
          if pd.defaultValue.isSome
              || (jsLookup step.variables paramName).isSome
              || (jsLookup ctx.varScope.variables paramName).isSome
              || (jsLookup ctx.scenarioDef.variables paramName).isSome then
            pure ctx
          else if pd.type ≠ "string" && pd.type ≠ "securestring"
              && paramName ∉ ctx.varScope.requiredVariables then
            Except.error ("Only string and securestring type is supported in arm template params, please specify defaultValue for: " ++ paramName)
          else
            pure (ctx.setVarScope { ctx.varScope with
              requiredVariables := ctx.varScope.requiredVariables ++ [paramName] })) ctx
    let ctx :=
      match payload.outputs with
      | none => ctx
      | some outputs => ctx.setVarScope (declareOutputVariables outputs ctx.varScope)
    -- armTemplateParameterConvention: modelled as the identity (see above)
    pure (step, ctx)

/-- The fixed deployment-script template skeleton. Modelled from the spec
(constants.ts `armDeploymentScriptTemplate` is not among the given sources):
a deployment template with a single deploymentScripts resource whose
properties the compiler fills in. -/
def armDeploymentScriptTemplate : ArmTemplatePayload :=
  { resources := some [{
      name := ""
      type := "Microsoft.Resources/deploymentScripts"
      properties := { environmentVariables := some [] } }] }

/-- ApiScenarioLoader.isSecretVariable (source lines 941-960): scan the value
for `$(name)` tokens whose name is a secret of the step, the current scenario
or the definition scope. -/
def isSecretVariable (value : String) (stepScope : VariableScope) (ctx : Ctx) : Bool :=
  (extractTokens value).any (fun refKey =>
    refKey ∈ stepScope.secretVariables
    || (match ctx.scenario with
        | some sc => refKey ∈ sc.secretVariables
        | none => false)
    || refKey ∈ ctx.scenarioDef.secretVariables)

/-- ApiScenarioLoader.loadStepArmDeploymentScript (source lines 885-939):
wrap the script in the fixed skeleton, pick the runtime flavor by file
extension, and classify each declared environment variable as secret or
plain with `isSecretVariable`. -/
def loadStepArmDeploymentScript (L : LoaderEnv) (rawStep : RawStepArmScript) (ctx : Ctx) :
    Except String (StepArmTemplate × Ctx) := do
  let vs ← convertVariables rawStep.variables
  let step : StepArmTemplate := {
    toVariableScope := vs
    step := rawStep.step.getD
      (ctx.namePrefix ++ "_" ++ toString ctx.stepIndex ++ "_ArmDeploymentScript")
    description := rawStep.description
    outputVariables := rawStep.outputVariables.getD []
    armTemplate := ""
    armTemplatePayload := {} }
  let payload := armDeploymentScriptTemplate
  let step := { step with armTemplatePayload := payload }
  let resource := (payload.resources.getD []).headD {}
  let resource := { resource with name := step.step }
  let resource :=
    if rawStep.armDeploymentScript.endsWith ".ps1" then
      let newProps := { resource.properties with azPowerShellVersion := some "6.2" }
      { resource with kind := some "AzurePowerShell", properties := newProps }
    else
      let newProps := { resource.properties with azCliVersion := some "2.0.80" }
      { resource with kind := some "AzureCLI", properties := newProps }
  let filePath := pathJoin (pathDirName ctx.scenarioDef._filePath) rawStep.armDeploymentScript
  match jsLookup L.scriptFiles filePath with
  | none => Except.error ("Script file not found: " ++ filePath)
  | some scriptContent => do
    let resource := { resource with properties := { resource.properties with
      scriptContent := some scriptContent, arguments := rawStep.arguments } }
    let resource := (rawStep.environmentVariables.getD []).foldl (fun resource nv =>
      let (entryName, entryValue) := nv
      let entry : DeploymentScriptEnvVar :=
        if isSecretVariable entryValue step.toVariableScope ctx then
          { name := entryName, secureValue := some entryValue }
        else
          { name := entryName, value := some entryValue }
      let newEnvVars := some ((resource.properties.environmentVariables.getD []) ++ [entry])
      { resource with properties := { resource.properties with
        environmentVariables := newEnvVars } }) resource
    let step := { step with armTemplatePayload := { payload with resources := some [resource] } }
    -- armTemplateParameterConvention: modelled as the identity
    pure (step, ctx)

/-- ApiScenarioLoader.loadStep (source lines 614-641): dispatch on the raw
step's shape, wrap any inner failure, declare the step's output variables in
the owning scope (`step.outputVariables` is an object, `{}` when absent, hence
always truthy), and advance the step index. The source's wrapper message
interpolates `JSON.stringify(rawStep)`; the raw step's serialized text is not
modelled. -/
def loadStep (L : LoaderEnv) (rawStep : RawStep) (ctx : Ctx) : Except String (Step × Ctx) := do
  let loaded : Except String (Step × Ctx) :=
    match rawStep with
    | .operation r =>
      (loadStepRestCall L (Sum.inl r) ctx).map
        (fun (p : StepRestCall × Ctx) => (Step.restCall p.1, p.2))
    | .example r =>
      (loadStepRestCall L (Sum.inr r) ctx).map
        (fun (p : StepRestCall × Ctx) => (Step.restCall p.1, p.2))
    | .armTemplate r =>
      (loadStepArmTemplate L r ctx).map
        (fun (p : StepArmTemplate × Ctx) => (Step.armTemplateDeployment p.1, p.2))
    | .armScript r =>
      (loadStepArmDeploymentScript L r ctx).map
        (fun (p : StepArmTemplate × Ctx) => (Step.armTemplateDeployment p.1, p.2))
  match loaded with
  | .error e => Except.error ("Failed to load step: " ++ e)
  | .ok (step, ctx) =>
    let ctx := ctx.setVarScope (declareOutputVariables step.outputVariables ctx.varScope)
    let ctx := { ctx with stepIndex := ctx.stepIndex + 1 }
    pure (step, ctx)

/-- ApiScenarioLoader.loadScenario (source lines 584-612): build the scenario
record (name defaulted from the index, `shareScope` defaulted to true,
required list the deduplicated union with the definition's), set it current,
and load the steps into it. -/
def loadScenario (L : LoaderEnv) (rawScenario : RawScenario) (ctx : Ctx) :
    Except String (Scenario × Ctx) := do
  let ctx := { ctx with stage := some "scenario" }
  let scenarioDef := ctx.scenarioDef
  let variableScope ← convertVariables rawScenario.variables
  let variableScope := { variableScope with
    requiredVariables := dedupFirst (scenarioDef.requiredVariables ++ variableScope.requiredVariables) }
  let scenario : Scenario := {
    toVariableScope := variableScope
    scenario := rawScenario.scenario.getD
      ("scenario_" ++ (match ctx.scenarioIndex with
        | some i => toString i
        | none => "undefined"))
    description := rawScenario.description.getD ""
    shareScope := rawScenario.shareScope.getD true
    steps := [] }
  let ctx := { ctx with scenario := some scenario, stepIndex := 0 }
  let ctx ← rawScenario.steps.foldlM (fun (ctx : Ctx) rawStep => do
    let (step, ctx) ← loadStep L rawStep ctx
    match ctx.scenario with
    | some sc => pure { ctx with scenario := some { sc with steps := sc.steps ++ [step] } }
    | none => pure ctx) ctx
  match ctx.scenario with
  | some sc => pure (sc, ctx)
  | none =>
    -- unreachable: the scenario is set above and loadStep keeps it present
    Except.error "loadScenario: no current scenario"

/-- ApiScenarioLoader.loadPrepareSteps (source lines 564-572). -/
def loadPrepareSteps (L : LoaderEnv) (rawDef : RawScenarioDefinition) (ctx : Ctx) :
    Except String Ctx := do
  let ctx := { ctx with stage := some "prepare", stepIndex := 0 }
  (rawDef.prepareSteps.getD []).foldlM (fun (ctx : Ctx) rawStep => do
    let (step, ctx) ← loadStep L rawStep ctx
    let step := step.markPrepare
    pure { ctx with scenarioDef := { ctx.scenarioDef with
      prepareSteps := ctx.scenarioDef.prepareSteps ++ [step] } }) ctx

/-- ApiScenarioLoader.loadCleanUpSteps (source lines 574-582). -/
def loadCleanUpSteps (L : LoaderEnv) (rawDef : RawScenarioDefinition) (ctx : Ctx) :
    Except String Ctx := do
  let ctx := { ctx with stage := some "cleanUp", stepIndex := 0 }
  (rawDef.cleanUpSteps.getD []).foldlM (fun (ctx : Ctx) rawStep => do
    let (step, ctx) ← loadStep L rawStep ctx
    let step := step.markCleanUp
    pure { ctx with scenarioDef := { ctx.scenarioDef with
      cleanUpSteps := ctx.scenarioDef.cleanUpSteps ++ [step] } }) ctx

/-- ApiScenarioLoader.load (source lines 518-562). The YAML parse and swagger
initialization are external; the raw definition tree and the prebuilt indices
come in as arguments. Seeds the required list with subscriptionId (and
location for ResourceGroup scope), loads prepare and clean-up steps, then each
scenario with a cleared step-tracking set. -/
def load (L : LoaderEnv) (filePath : String) (rawDef : RawScenarioDefinition) :
    Except String ScenarioDefinition := do
  let vs ← convertVariables rawDef.variables
  let scenarioDef : ScenarioDefinition := {
    toVariableScope := vs
    scope := rawDef.scope.getD "ResourceGroup"
    prepareSteps := []
    scenarios := []
    _filePath := filePath
    _swaggerFilePaths := L.swaggerFilePaths
    cleanUpSteps := [] }
  let scenarioDef :=
    if scenarioDef.scope = "ResourceGroup" || scenarioDef.scope = "Subscription" then
      { scenarioDef with requiredVariables := dedupFirst (scenarioDef.requiredVariables
          ++ ["subscriptionId"]
          ++ (if scenarioDef.scope = "ResourceGroup" then ["location"] else [])) }
    else scenarioDef
  let ctx : Ctx := { stepTracking := [], scenarioDef := scenarioDef, stepIndex := 0 }
  let ctx ← loadPrepareSteps L rawDef ctx
  let ctx ← loadCleanUpSteps L rawDef ctx
  let ctx := { ctx with scenarioIndex := some 0 }
  let ctx ← rawDef.scenarios.foldlM (fun (ctx : Ctx) rawScenario => do
    let ctx := { ctx with stepTracking := [] }
    let (scenario, ctx) ← loadScenario L rawScenario ctx
    let ctx := { ctx with scenarioDef := { ctx.scenarioDef with
      scenarios := ctx.scenarioDef.scenarios ++ [scenario] } }
    pure { ctx with scenarioIndex := ctx.scenarioIndex.map (· + 1) }) ctx
  pure ctx.scenarioDef

/-! The scenario runner (ApiScenarioRunner). -/

/-- The request descriptor built for a REST-call step
(ApiScenarioClientRequest, runner source lines 41-48). -/
structure ApiScenarioClientRequest where
  method : String
  path : String
  pathVariables : List (String × VarValue) := []
  headers : List (String × VarValue) := []
  query : List (String × VarValue) := []
  body : Option VarValue := none
deriving Repr

/-- A character of a path-template token: the `[a-z0-9_$]+` class of the
source's case-insensitive replacement regex. -/
def isPathIdentChar (c : Char) : Bool :=
  (c ≥ 'a' && c ≤ 'z') || (c ≥ 'A' && c ≤ 'Z') || (c ≥ '0' && c ≤ '9') || c = '_' || c = '$'

/-- Longest path-token run at the front of a character list, and the rest. -/
def takePathIdent : List Char → List Char × List Char
  | [] => ([], [])
  | c :: cs =>
    if isPathIdentChar c then
      let (i, r) := takePathIdent cs
      (c :: i, r)
    else
      ([], c :: cs)

/-- Rewrite `{name}` tokens of a path template to `$(name)` (runner source
line 220). `fuel` bounds recursion; callers pass the list's length. -/
def rewritePathCore (fuel : Nat) : List Char → List Char
  | [] => []
  | c :: cs =>
    match fuel with
    | 0 => c :: cs
    | fuel + 1 =>
      if c = '{' then
        let (i, rest) := takePathIdent cs
        match i, rest with
        | _ :: _, '}' :: tail => '$' :: '(' :: i ++ ')' :: rewritePathCore fuel tail
        | _, _ => '{' :: rewritePathCore fuel cs
      else c :: rewritePathCore fuel cs

/-- The path template with `{name}` rewritten to the placeholder form. -/
def rewritePathTemplate (s : String) : String :=
  String.mk (rewritePathCore (s.length + 1) s.data)

/-- The external-client calls the runner makes, as a chronological log: the
observable behavior of one execution. -/
inductive Event where
  | createResourceGroup (subscriptionId resourceGroupName location : String)
  | deleteResourceGroup (subscriptionId resourceGroupName : String)
  | prepareScenario (scenarioName : String)
  | sendRestCallRequest (stepName : String)
  | sendArmTemplateDeployment (stepName deploymentName : String)
deriving Repr, DecidableEq

/-- The external client's behavior (ApiScenarioRunnerClient): for each call,
`none` means it completes, `some msg` that it rejects with that message. REST
calls and deployments are keyed by the step's identity. -/
structure ClientBehavior where
  prepareScenarioResult : String → Option String := fun _ => none
  createResourceGroupResult : String → String → String → Option String := fun _ _ _ => none
  deleteResourceGroupResult : String → String → Option String := fun _ _ => none
  sendRestCallResult : String → Option String := fun _ => none
  sendArmTemplateResult : String → Option String := fun _ => none

/-- ApiScenarioRunnerOption: `resolveVariables ?? true`, `skipCleanUp ??
false`, and the caller-supplied top-level environment (`opts.env`). -/
structure RunnerOptions where
  resolveVariables : Bool := true
  skipCleanUp : Bool := false
  env : List (String × String) := []

/-- A runtime Scope (runner source lines 33-39). The provisioning status is
two-state as the spec describes: false = unprovisioned, true = provisioned
(the source's `provisioned?: boolean` is only ever set to true). -/
structure Scope where
  provisioned : Bool := false
  type : String
  prepareSteps : List Step := []
  cleanUpSteps : List Step := []
  env : VariableEnv := VariableEnv.new
deriving Repr

/-- The runner's mutable surroundings: the scope registry (`scopeTracking`),
the random source's counter (see `getRandomString`) and the log of
external-client calls made so far. -/
structure RState where
  scopeTracking : List (String × Scope) := []
  randCounter : Nat := 0
  events : List Event := []
deriving Repr

/-- Append one external-client call to the log. -/
def logEvent (st : RState) (e : Event) : RState := { st with events := st.events ++ [e] }

/-- One call of the (modelled) random source: the counter's current string,
counter advanced. -/
def drawRand (st : RState) : String × RState :=
  (getRandomString st.randCounter, { st with randCounter := st.randCounter + 1 })

/-- ApiScenarioRunner.prepareScope (source lines 110-146): resolve the scope
name (shared or randomly suffixed), return the tracked scope when the name is
known, otherwise build the scope environment (definition variables under the
top-level environment), reject a None scope, default resourceGroupName to an
apiTest- prefix variable, materialize prefixes and register the scope. The
scenario's `_scenarioDef` back-reference is the `scenarioDef` argument. -/
def prepareScope (opt : RunnerOptions) (scenario : Scenario)
    (scenarioDef : ScenarioDefinition) (st : RState) :
    Except String (String × Scope) × RState :=
  let named :=
    if scenario.shareScope then ("_defaultScope", st)
    else
      let (r, st) := drawRand st
      ("_randomScope_" ++ r, st)
  let (scopeName, st) := named
  match jsLookup st.scopeTracking scopeName with
  | some scope => (Except.ok (scopeName, scope), st)
  | none =>
    -- Variable scope: ScenarioDef <= RuntimeScope <= Scenario <= Step
    let scopeEnv :=
      (VariableEnv.child (VariableEnv.new.setBatch scenarioDef.variables)).setBatchEnv opt.env
    let scope : Scope := {
      type := scenarioDef.scope
      prepareSteps := scenarioDef.prepareSteps
      cleanUpSteps := scenarioDef.cleanUpSteps
      env := scopeEnv }
    if scope.type = "None" then
      (Except.error ("Scope is not supported yet: " ++ scope.type), st)
    else
      let scope :=
        if (scope.env.get "resourceGroupName").isNone then
          let rgDefault : Variable := { type := "string", varPrefix := some "apiTest-" }
          { scope with env := scope.env.set "resourceGroupName" rgDefault }
        else scope
      let (newEnv, c) := generateValueFromPrefix scope.env st.randCounter
      let scope := { scope with env := newEnv }
      let st := { st with randCounter := c }
      let st := { st with scopeTracking := jsInsert st.scopeTracking scopeName scope }
      (Except.ok (scopeName, scope), st)

/-- The request construction of executeRestCallStep (source lines 218-254):
method, rewritten path, and each declared operation parameter routed into its
location bucket; a missing required value and an unsupported location are
fatal. -/
def buildRestCallRequest (step : StepRestCall) : Except String ApiScenarioClientRequest := do
  let req : ApiScenarioClientRequest := {
    method := step.operation._method.toUpper
    path := rewritePathTemplate step.operation._pathTemplate }
  (step.operation.parameters.getD []).foldlM (fun (req : ApiScenarioClientRequest) param => do
    let paramVal := jsGet step.parameters param.name
    match paramVal with
    | .undefined =>
      if param.required then
        Except.error ("Parameter value for \"" ++ param.name ++ "\" is not found in step: " ++ step.step)
      else pure req
    | _ =>
      match param.paramIn with
      | "path" => pure { req with pathVariables := jsInsert req.pathVariables param.name paramVal }
      | "query" => pure { req with query := jsInsert req.query param.name paramVal }
      | "header" => pure { req with headers := jsInsert req.headers param.name paramVal }
      | "body" => pure { req with body := some paramVal }
      | _ => Except.error ("Parameter \"in\" not supported: " ++ param.paramIn)) req

/-- Placeholder resolution over the whole request descriptor
(`env.resolveObjectValues(req)`). -/
def resolveRequest (env : VariableEnv) (req : ApiScenarioClientRequest) :
    ApiScenarioClientRequest :=
  { method := resolveString env req.method
    path := resolveString env req.path
    pathVariables := resolveVarValueFields env req.pathVariables
    headers := resolveVarValueFields env req.headers
    query := resolveVarValueFields env req.query
    body := req.body.map (resolveVarValue env) }

/-- ApiScenarioRunner.executeRestCallStep (source lines 217-265): build the
request, resolve it when resolution is on, delegate to the client. The
`_resolvedParameters` snapshot the source caches onto the step afterwards is
not modelled: nothing embedded reads it back. -/
def executeRestCallStep (beh : ClientBehavior) (opt : RunnerOptions) (step : StepRestCall)
    (env : VariableEnv) (st : RState) : RState × Except String Unit :=
  match buildRestCallRequest step with
  | .error e => (st, .error e)
  | .ok req =>
    let _resolved := if opt.resolveVariables then resolveRequest env req else req
    let st := logEvent st (.sendRestCallRequest step.step)
    match beh.sendRestCallResult step.step with
    | some msg => (st, .error msg)
    | none => (st, .ok ())

/-- ApiScenarioRunner.executeArmTemplateStep (source lines 267-286): resolve
subscriptionId and resourceGroupName (fatal when absent), synthesize a
per-invocation deployment name from a fresh random suffix, delegate to the
client. The resolved template payload is routed to the external client and not
otherwise observed. -/
def executeArmTemplateStep (beh : ClientBehavior) (_opt : RunnerOptions)
    (step : StepArmTemplate) (env : VariableEnv) (_scope : Scope) (st : RState) :
    RState × Except String Unit :=
  match env.getRequiredString "subscriptionId" with
  | .error e => (st, .error e)
  | .ok _subscriptionId =>
    match env.getRequiredString "resourceGroupName" with
    | .error e => (st, .error e)
    | .ok resourceGroupName =>
      let (r, st) := drawRand st
      let deploymentName := resourceGroupName ++ "-deploy-" ++ r
      let st := logEvent st (.sendArmTemplateDeployment step.step deploymentName)
      match beh.sendArmTemplateResult step.step with
      | some msg => (st, .error msg)
      | none => (st, .ok ())

/-- The step-local environment executeStep dispatches with (source lines
193-199): the step's variables layered over the passed environment, prefixes
materialized from counter `c`, fully resolved when resolution is on. -/
def stepEnvOf (opt : RunnerOptions) (step : Step) (env : VariableEnv) (c : Nat) :
    VariableEnv :=
  let genned := generateValueFromPrefix ((VariableEnv.child env).setBatch step.varScope.variables) c
  if opt.resolveVariables then genned.1.resolveAll else genned.1

/-- The random counter after the step environment's prefix materialization. -/
def stepEnvCounter (step : Step) (env : VariableEnv) (c : Nat) : Nat :=
  (generateValueFromPrefix ((VariableEnv.child env).setBatch step.varScope.variables) c).2

/-- ApiScenarioRunner.executeStep (source lines 192-215): layer the step
environment, materialize its prefixes, optionally resolve it, dispatch by step
kind, and wrap a failure with the step's identity. The source also appends
`error.stack` to the wrapper; a stack trace has no model here. -/
def executeStep (beh : ClientBehavior) (opt : RunnerOptions) (step : Step)
    (env : VariableEnv) (scope : Scope) (st : RState) : RState × Except String Unit :=
  let stepEnv := stepEnvOf opt step env st.randCounter
  let st := { st with randCounter := stepEnvCounter step env st.randCounter }
  let result :=
    match step with
    | .restCall s => executeRestCallStep beh opt s stepEnv st
    | .armTemplateDeployment s => executeArmTemplateStep beh opt s stepEnv scope st
  match result with
  | (st, .ok _) => (st, .ok ())
  | (st, .error msg) => (st, .error ("Failed to execute step " ++ step.name ++ ": " ++ msg))

/-- Sequential execution of a step list against a fixed environment and scope:
the loops of doProvisionScope, executeScenario and cleanUpScope. A failing
step stops the loop. -/
def runSteps (beh : ClientBehavior) (opt : RunnerOptions) (steps : List Step)
    (env : VariableEnv) (scope : Scope) (st : RState) : RState × Except String Unit :=
  match steps with
  | [] => (st, .ok ())
  | s :: rest =>
    match executeStep beh opt s env scope st with
    | (st, .ok _) => runSteps beh opt rest env scope st
    | (st, .error e) => (st, .error e)

/-- ApiScenarioRunner.doProvisionScope (source lines 87-99). The
`getLazyBuilder` wrapper (util/lazyBuilder.ts is not among the given sources)
is modelled from the spec: the routine is memoized on the scope's provisioning
status — a provisioned scope returns immediately; otherwise the body runs
(resource-group creation for a ResourceGroup scope, then every prepare step)
and the status is recorded on successful completion ("run once, remember
result"). -/
def doProvisionScope (beh : ClientBehavior) (opt : RunnerOptions) (scope : Scope)
    (st : RState) : Scope × RState × Except String Unit :=
  if scope.provisioned then (scope, st, .ok ())
  else
    let created : RState × Except String Unit :=
      if scope.type = "ResourceGroup" then
        match scope.env.getRequiredString "subscriptionId" with
        | .error e => (st, .error e)
        | .ok subscriptionId =>
          match scope.env.getRequiredString "resourceGroupName" with
          | .error e => (st, .error e)
          | .ok resourceGroupName =>
            match scope.env.getRequiredString "location" with
            | .error e => (st, .error e)
            | .ok location =>
              let st := logEvent st (.createResourceGroup subscriptionId resourceGroupName location)
              match beh.createResourceGroupResult subscriptionId resourceGroupName location with
              | some msg => (st, .error msg)
              | none => (st, .ok ())
      else (st, .ok ())
    match created with
    | (st, .error e) => (scope, st, .error e)
    | (st, .ok _) =>
      match runSteps beh opt scope.prepareSteps scope.env scope st with
      | (st, .ok _) => ({ scope with provisioned := true }, st, .ok ())
      | (st, .error e) => (scope, st, .error e)

/-- ApiScenarioRunner.cleanUpScope (source lines 148-157): every clean-up step
against the scope environment, then resource-group deletion for a
ResourceGroup scope. -/
def cleanUpScope (beh : ClientBehavior) (opt : RunnerOptions) (scope : Scope)
    (st : RState) : RState × Except String Unit :=
  match runSteps beh opt scope.cleanUpSteps scope.env scope st with
  | (st, .error e) => (st, .error e)
  | (st, .ok _) =>
    if scope.type = "ResourceGroup" then
      match scope.env.getRequiredString "subscriptionId" with
      | .error e => (st, .error e)
      | .ok subscriptionId =>
        match scope.env.getRequiredString "resourceGroupName" with
        | .error e => (st, .error e)
        | .ok resourceGroupName =>
          let st := logEvent st (.deleteResourceGroup subscriptionId resourceGroupName)
          match beh.deleteResourceGroupResult subscriptionId resourceGroupName with
          | some msg => (st, .error msg)
          | none => (st, .ok ())
    else (st, .ok ())

/-- The scenario-local environment phase of executeScenario (source lines
171-173): the scenario's variables layered over the scope environment, with
prefixes materialized. -/
def scenarioPhaseEnv (scenario : Scenario) (scope : Scope) (st : RState) :
    VariableEnv × RState :=
  let scenarioEnv := (VariableEnv.child scope.env).setBatch scenario.variables
  let genned := generateValueFromPrefix scenarioEnv st.randCounter
  (genned.1, { st with randCounter := genned.2 })

/-- ApiScenarioRunner.executeScenario (source lines 169-190): scope
resolution, scenario environment, the client's preparation hook, provisioning,
then the step loop inside try/catch/finally — a step failure is wrapped with
the scenario identity; the finally clause runs cleanUpScope unless skipCleanUp
is set, a cleanup failure replacing the pending result (JavaScript finally
semantics). Hook and provisioning failures propagate before the try block.
The provisioned scope is written back to the registry, where the source's
in-place mutation leaves it. -/
def executeScenario (beh : ClientBehavior) (opt : RunnerOptions)
    (scenarioDef : ScenarioDefinition) (scenario : Scenario) (st : RState) :
    RState × Except String Unit :=
  match prepareScope opt scenario scenarioDef st with
  | (.error e, st) => (st, .error e)
  | (.ok (scopeName, scope), st) =>
    let phase := scenarioPhaseEnv scenario scope st
    let scenarioEnv := phase.1
    let st := phase.2
    let st := logEvent st (.prepareScenario scenario.scenario)
    match beh.prepareScenarioResult scenario.scenario with
    | some msg => (st, .error msg)
    | none =>
      match doProvisionScope beh opt scope st with
      | (_, st, .error e) => (st, .error e)
      | (scope, st, .ok _) =>
        let st := { st with scopeTracking := jsInsert st.scopeTracking scopeName scope }
        let ran := runSteps beh opt scenario.steps scenarioEnv scope st
        let st := ran.1
        let wrapped : Except String Unit :=
          match ran.2 with
          | .ok _ => .ok ()
          | .error e =>
            .error ("Failed to execute scenario: " ++ scenario.scenario ++ ": " ++ e)
        if opt.skipCleanUp then (st, wrapped)
        else
          match cleanUpScope beh opt scope st with
          | (st, .ok _) => (st, wrapped)
          | (st, .error ce) => (st, .error ce)

/-- Iterated invocation of the provisioning routine: n calls in sequence on
the same scope object, threading the updated scope and state. -/
def provisionIter (beh : ClientBehavior) (opt : RunnerOptions) :
    Nat → Scope → RState → Scope × RState × Except String Unit
  | 0, scope, st => (scope, st, Except.ok ())
  | n + 1, scope, st =>
    match n with
    | 0 => doProvisionScope beh opt scope st
    | m + 1 =>
      let r := doProvisionScope beh opt scope st
      provisionIter beh opt (m + 1) r.1 r.2.1

/-- The step dispatched by an event, when the event is a step dispatch. -/
def Event.dispatchedStep? : Event → Option String
  | .sendRestCallRequest n => some n
  | .sendArmTemplateDeployment n _ => some n
  | _ => none

/-- Which steps were actually sent to the external client, in order: the step
dispatches among the logged events. -/
def dispatchedSteps (evs : List Event) : List String :=
  evs.filterMap Event.dispatchedStep?

/-- The resource-container deletion requests among the logged events. -/
def deleteRequests (evs : List Event) : List Event :=
  evs.filter (fun e => match e with | .deleteResourceGroup _ _ => true | _ => false)

/-! Concrete executions: a small client/scenario family used to exhibit the
runner's behavior at specific inputs. -/

/-- A REST-call step with the given name and a default operation. -/
def stepR (n : String) : Step := Step.restCall { step := n }

/-- A client that rejects the REST call of step s1 with "boom". -/
def behBoom : ClientBehavior :=
  { sendRestCallResult := fun s => if s = "s1" then some "boom" else none }

/-- A client whose scenario-preparation hook rejects with "hookfail". -/
def behHook : ClientBehavior := { prepareScenarioResult := fun _ => some "hookfail" }

/-- A client that rejects the REST call of step p0 with "boom". -/
def behPrep : ClientBehavior :=
  { sendRestCallResult := fun s => if s = "p0" then some "boom" else none }

/-- Default runner options. -/
def optR : RunnerOptions := {}

/-- A definition with a Dummy scope and one clean-up step. -/
def defR : ScenarioDefinition := { scope := "Dummy", cleanUpSteps := [stepR "c0"] }

/-- A definition with a Dummy scope, one prepare step and one clean-up step. -/
def defP : ScenarioDefinition :=
  { scope := "Dummy", prepareSteps := [stepR "p0"], cleanUpSteps := [stepR "c0"] }

/-- A two-step scenario named scA (shareScope defaults to true). -/
def scR : Scenario := { scenario := "scA", steps := [stepR "s1", stepR "s2"] }

/-- The scope preparation of scR under defR from a fresh state, and the pieces
of the ensuing run against behBoom. -/
def prepR := prepareScope optR scR defR {}

/-- The prepared scope of prepR. -/
def scopeR : Scope := match prepR.1 with | .ok p => p.2 | .error _ => { type := "" }

/-- The state after prepR. -/
def stR1 : RState := prepR.2

/-- The scenario-environment phase on scopeR. -/
def phaseR := scenarioPhaseEnv scR scopeR stR1

/-- The provisioning call of the behBoom run. -/
def provR := doProvisionScope behBoom optR scopeR
  (logEvent phaseR.2 (Event.prepareScenario scR.scenario))

/-- The provisioned scope of provR. -/
def scopeRP : Scope := provR.1

/-- The state after provR. -/
def stR4 : RState := provR.2.1

/-- stR4 with the provisioned scope written back to the registry. -/
def stR6 : RState :=
  { stR4 with scopeTracking := jsInsert stR4.scopeTracking "_defaultScope" scopeRP }

/-- The request built for step s1. -/
def reqR : ApiScenarioClientRequest :=
  match buildRestCallRequest { step := "s1" } with
  | .ok r => r
  | .error _ => { method := "", path := "" }

/-- The scope preparation of scR under defP, whose provisioning fails against
behPrep. -/
def prepP := prepareScope optR scR defP {}

/-- The prepared scope of prepP. -/
def scopeP0 : Scope := match prepP.1 with | .ok p => p.2 | .error _ => { type := "" }

/-- The state after prepP. -/
def stP1 : RState := prepP.2

/-- The failing provisioning call of the behPrep run. -/
def provP := doProvisionScope behPrep optR scopeP0
  (logEvent (scenarioPhaseEnv scR scopeP0 stP1).2 (Event.prepareScenario scR.scenario))

/-- The current scenario's shareScope flag — the scenario-state component the
step loaders leave untouched. -/
def scnShare (ctx : Ctx) : Option Bool := ctx.scenario.map (fun sc => sc.shareScope)

/-- A loader environment holding one parameterless ARM template. -/
def L4 : LoaderEnv := { armTemplateFiles := [("./t.json", {})] }

/-- A raw definition whose one scenario has two ARM-template steps that carry
the same explicit name. -/
def raw4 : RawScenarioDefinition := { scenarios := [{ steps := [
  RawStep.armTemplate { step := some "dup", armTemplate := "t.json" },
  RawStep.armTemplate { step := some "dup", armTemplate := "t.json" }] }] }

/-- A bare loader context over an empty definition. -/
def ctx10 : Ctx := { scenarioDef := {} }

/-- Compiling an empty raw scenario (shareScope omitted). -/
def ld10 := loadScenario ({} : LoaderEnv) ({} : RawScenario) ctx10

/-- The scenario ld10 compiles. -/
def sc10 : Scenario := match ld10 with | .ok p => p.1 | .error _ => { scenario := "" }

/-- The context ld10 leaves. -/
def ctx10b : Ctx := match ld10 with | .ok p => p.2 | .error _ => ctx10

/-- A loader environment holding one ARM template with a single defaultless
string parameter p. -/
def L3 : LoaderEnv :=
  { armTemplateFiles := [("./t.json", { parameters := some [("p", { type := "string" })] })] }

/-- A raw definition whose one scenario references that template from two
different steps. -/
def raw3 : RawScenarioDefinition := { scenarios := [{ steps := [
  RawStep.armTemplate { armTemplate := "t.json" },
  RawStep.armTemplate { armTemplate := "t.json" }] }] }

/-- A context whose definition scope already requires p. -/
def ctx3w : Ctx :=
  { scenarioDef := { toVariableScope := { requiredVariables := ["p"] }, _filePath := "f" } }

/-- A raw ARM-template step referencing t.json. -/
def raw3w : RawStepArmTemplate := { armTemplate := "t.json" }

/-- A loader environment with one operation, its pinned api-version, and one
example fixture that does not supply api-version. -/
def L5 : LoaderEnv :=
  { operationsMap := [("op1", {})],
    apiVersionsMap := [("op1", "2021-01-01")],
    exampleFiles := [("./ex.json", { operationId := some "op1", parameters := [("name", VarValue.str "n")] })] }

/-- A loader environment like L5 whose fixture supplies a (truthy) stale
api-version value. -/
def L5b : LoaderEnv :=
  { operationsMap := [("op1", {})],
    apiVersionsMap := [("op1", "2021-01-01")],
    exampleFiles := [("./ex.json", { operationId := some "op1", parameters := [("api-version", VarValue.str "junk")] })] }

/-- A context over a definition located at f. -/
def ctx5 : Ctx := { scenarioDef := { _filePath := "f" } }

/-! Helper lemmas. -/

theorem jsLookup_insert_self (m : List (String × α)) (k : String) (v : α) :
    jsLookup (jsInsert m k v) k = some v := by
  unfold jsInsert
  by_cases h : (m.find? (fun p => p.1 = k)).isSome
  · simp only [h, if_true]
    induction m with
    | nil => simp at h
    | cons p rest ih =>
      by_cases hp : p.1 = k
      · simp [jsLookup, List.find?, hp]
      · simp only [List.find?_cons, hp] at h
        simp only [List.map_cons, if_neg hp]
        have := ih (by simpa [List.find?_cons, hp] using h)
        simpa [jsLookup, List.find?, hp] using this
  · simp only [h, if_false]
    induction m with
    | nil => simp [jsLookup, List.find?]
    | cons p rest ih =>
      by_cases hp : p.1 = k
      · exfalso
        apply h
        simp [List.find?_cons, hp]
      · simp only [List.cons_append]
        have hrest : ¬ (rest.find? (fun q => q.1 = k)).isSome := by
          intro hh
          apply h
          simpa [List.find?_cons, hp] using hh
        have := ih hrest
        simpa [jsLookup, List.find?, hp] using this

theorem foldl_preserve {α β : Type} (f : β → α → β) (P : β → Prop)
    (hf : ∀ b a, P b → P (f b a)) :
    ∀ (l : List α) (b : β), P b → P (List.foldl f b l) := by
  intro l
  induction l with
  | nil => intro b hb; simpa using hb
  | cons a rest ih =>
    intro b hb
    simpa using ih (f b a) (hf b a hb)

theorem foldlM_preserve {α β : Type} (f : β → α → Except String β) (P : β → Prop)
    (hf : ∀ b a b', f b a = Except.ok b' → P b → P b') :
    ∀ (l : List α) (b b' : β), List.foldlM f b l = Except.ok b' → P b → P b' := by
  intro l
  induction l with
  | nil =>
    intro b b' h hb
    simp only [List.foldlM_nil, pure, Except.pure] at h
    cases h
    exact hb
  | cons a rest ih =>
    intro b b' h hb
    simp only [List.foldlM_cons] at h
    cases hfa : f b a with
    | error e => simp [hfa, bind, Except.bind] at h
    | ok b1 =>
      simp only [hfa, bind, Except.bind] at h
      exact ih b1 b' h (hf b a b1 hfa hb)

/-! Prefix materialization: lemmas for claim C8. -/

theorem needsGen_after_assign (v : Variable) (w : VarValue) :
    needsGen { v with value := some w } = false := by
  simp [needsGen]

theorem genLayer_all_noGen : ∀ (l : List (String × Variable)) (c : Nat),
    ∀ p ∈ (genLayer l c).1, needsGen p.2 = false := by
  intro l
  induction l with
  | nil => intro c p hp; simp [genLayer] at hp
  | cons q rest ih =>
    obtain ⟨n, v⟩ := q
    intro c p hp
    simp only [genLayer] at hp
    by_cases hq : needsGen v = true
    · rw [if_pos hq] at hp
      rcases hgen : genLayer rest (c + 1) with ⟨rest2, c2⟩
      rw [hgen] at hp
      simp only [List.mem_cons] at hp
      rcases hp with h1 | h2
      · rw [h1]; exact needsGen_after_assign v _
      · exact ih (c + 1) p (by rw [hgen]; exact h2)
    · rw [if_neg hq] at hp
      rcases hgen : genLayer rest c with ⟨rest2, c2⟩
      rw [hgen] at hp
      simp only [List.mem_cons] at hp
      rcases hp with h1 | h2
      · rw [h1]; simpa using hq
      · exact ih c p (by rw [hgen]; exact h2)

theorem genLayer_noGen_id : ∀ (l : List (String × Variable)) (c : Nat),
    (∀ p ∈ l, needsGen p.2 = false) → genLayer l c = (l, c) := by
  intro l
  induction l with
  | nil => intro c _; simp [genLayer]
  | cons q rest ih =>
    obtain ⟨n, v⟩ := q
    intro c h
    have hq : needsGen v = false := h (n, v) (by simp)
    have hrest : ∀ p ∈ rest, needsGen p.2 = false := fun p hp => h p (by simp [hp])
    simp only [genLayer, hq]
    rw [ih c hrest]
    simp

theorem generateValueFromPrefix_stable (env : VariableEnv) (c c' : Nat) :
    generateValueFromPrefix (generateValueFromPrefix env c).1 c'
      = ((generateValueFromPrefix env c).1, c') := by
  obtain ⟨layers⟩ := env
  cases layers with
  | nil => simp [generateValueFromPrefix]
  | cons l rest =>
    simp only [generateValueFromPrefix]
    rcases hgen : genLayer l c with ⟨l2, c2⟩
    simp only [hgen]
    have h1 : ∀ p ∈ l2, needsGen p.2 = false := by
      intro p hp
      exact genLayer_all_noGen l c p (by rw [hgen]; exact hp)
    rw [genLayer_noGen_id l2 c' h1]

/-! Provisioning: lemmas for claims C1, C2 and C9. -/

theorem doProvisionScope_memo (beh : ClientBehavior) (opt : RunnerOptions)
    (scope : Scope) (st : RState) (h : scope.provisioned = true) :
    doProvisionScope beh opt scope st = (scope, st, Except.ok ()) := by
  unfold doProvisionScope
  rw [h]
  simp

theorem doProvisionScope_ok_provisioned (beh : ClientBehavior) (opt : RunnerOptions)
    (scope : Scope) (st : RState)
    (h : (doProvisionScope beh opt scope st).2.2 = Except.ok ()) :
    (doProvisionScope beh opt scope st).1.provisioned = true := by
  unfold doProvisionScope at h ⊢
  by_cases hp : scope.provisioned = true
  · rw [hp] at h ⊢
    simpa using hp
  · rw [Bool.not_eq_true] at hp
    rw [hp] at h ⊢
    simp only [Bool.false_eq_true, if_false] at h ⊢
    split at h
    next => simp at h
    next st2 u heq =>
      split at h
      next => simp
      next => simp at h

theorem provisionIter_memo (beh : ClientBehavior) (opt : RunnerOptions) :
    ∀ (n : Nat) (scope : Scope) (st : RState), scope.provisioned = true →
      provisionIter beh opt n scope st = (scope, st, Except.ok ()) := by
  intro n
  induction n with
  | zero => intro scope st _; rfl
  | succ m ih =>
    intro scope st h
    cases m with
    | zero =>
      simp only [provisionIter]
      exact doProvisionScope_memo beh opt scope st h
    | succ k =>
      simp only [provisionIter]
      rw [doProvisionScope_memo beh opt scope st h]
      exact ih scope st h

/-! Scope naming and the random source: lemmas for claims C7 and C10. -/

theorem getRandomString_length (n : Nat) : (getRandomString n).length = n := by
  simp [getRandomString, String.length_mk]

theorem randName_injective {a b : Nat} (h : a ≠ b) :
    "_randomScope_" ++ getRandomString a ≠ "_randomScope_" ++ getRandomString b := by
  intro hc
  apply h
  have := congrArg String.length hc
  simpa [String.length_append, getRandomString_length] using this

theorem genLayer_counter_mono : ∀ (l : List (String × Variable)) (c : Nat),
    c ≤ (genLayer l c).2 := by
  intro l
  induction l with
  | nil => intro c; simp [genLayer]
  | cons q rest ih =>
    obtain ⟨n, v⟩ := q
    intro c
    simp only [genLayer]
    by_cases hq : needsGen v = true
    · rw [if_pos hq]
      rcases hgen : genLayer rest (c + 1) with ⟨rest2, c2⟩
      have := ih (c + 1)
      rw [hgen] at this
      simpa using Nat.le_trans (Nat.le_succ c) this
    · rw [if_neg hq]
      rcases hgen : genLayer rest c with ⟨rest2, c2⟩
      have := ih c
      rw [hgen] at this
      simpa using this

theorem generateValueFromPrefix_counter_mono (env : VariableEnv) (c : Nat) :
    c ≤ (generateValueFromPrefix env c).2 := by
  obtain ⟨layers⟩ := env
  cases layers with
  | nil => simp [generateValueFromPrefix]
  | cons l rest =>
    simp only [generateValueFromPrefix]
    rcases hgen : genLayer l c with ⟨l2, c2⟩
    have := genLayer_counter_mono l c
    rw [hgen] at this
    simpa using this

theorem prepareScope_share (opt : RunnerOptions) (sc : Scenario)
    (scenarioDef : ScenarioDefinition) (st : RState) (n : String) (scope : Scope)
    (st' : RState) (hs : sc.shareScope = true)
    (h : prepareScope opt sc scenarioDef st = (Except.ok (n, scope), st')) :
    n = "_defaultScope" ∧ jsLookup st'.scopeTracking "_defaultScope" = some scope := by
  unfold prepareScope at h
  rw [hs] at h
  simp only [if_true] at h
  split at h
  next scope0 heq =>
    simp only [Prod.mk.injEq, Except.ok.injEq] at h
    obtain ⟨⟨h1, h2⟩, h3⟩ := h
    subst h1; subst h2; subst h3
    exact ⟨rfl, heq⟩
  next heq =>
    split at h
    next => exact absurd h (by simp)
    next =>
      simp only [Prod.mk.injEq, Except.ok.injEq] at h
      obtain ⟨⟨h1, h2⟩, h3⟩ := h
      subst h1; subst h2; subst h3
      refine ⟨rfl, ?_⟩
      simp only [jsLookup_insert_self]

theorem prepareScope_share_hit (opt : RunnerOptions) (sc : Scenario)
    (scenarioDef : ScenarioDefinition) (st : RState) (scope0 : Scope)
    (hs : sc.shareScope = true)
    (hl : jsLookup st.scopeTracking "_defaultScope" = some scope0) :
    prepareScope opt sc scenarioDef st = (Except.ok ("_defaultScope", scope0), st) := by
  unfold prepareScope
  rw [hs]
  simp only [if_true, hl]

theorem prepareScope_random (opt : RunnerOptions) (sc : Scenario)
    (scenarioDef : ScenarioDefinition) (st : RState) (n : String) (scope : Scope)
    (st' : RState) (hs : sc.shareScope = false)
    (h : prepareScope opt sc scenarioDef st = (Except.ok (n, scope), st')) :
    n = "_randomScope_" ++ getRandomString st.randCounter
    ∧ st.randCounter < st'.randCounter := by
  unfold prepareScope at h
  rw [hs] at h
  simp only [Bool.false_eq_true, if_false, drawRand] at h
  split at h
  next scope0 heq =>
    simp only [Prod.mk.injEq, Except.ok.injEq] at h
    obtain ⟨⟨h1, h2⟩, h3⟩ := h
    subst h1; subst h2; subst h3
    exact ⟨rfl, by simp⟩
  next heq =>
    split at h
    next => exact absurd h (by simp)
    next =>
      simp only [Prod.mk.injEq, Except.ok.injEq] at h
      obtain ⟨⟨h1, h2⟩, h3⟩ := h
      subst h1; subst h2; subst h3
      refine ⟨rfl, ?_⟩
      exact Nat.lt_of_lt_of_le (Nat.lt_succ_self _)
        (generateValueFromPrefix_counter_mono _ _)

/-! Event-log lemmas for claims C2, C6 and C9. -/

theorem dispatchedSteps_append (a b : List Event) :
    dispatchedSteps (a ++ b) = dispatchedSteps a ++ dispatchedSteps b := by
  simp [dispatchedSteps, List.filterMap_append]

theorem deleteRequests_append (a b : List Event) :
    deleteRequests (a ++ b) = deleteRequests a ++ deleteRequests b := by
  simp [deleteRequests, List.filter_append]

theorem executeRestCallStep_ok_eq (beh : ClientBehavior) (opt : RunnerOptions)
    (fs : StepRestCall) (env : VariableEnv) (st : RState) (req : ApiScenarioClientRequest)
    (hb : buildRestCallRequest fs = Except.ok req)
    (hm : beh.sendRestCallResult fs.step = none) :
    executeRestCallStep beh opt fs env st
      = (logEvent st (Event.sendRestCallRequest fs.step), Except.ok ()) := by
  unfold executeRestCallStep
  rw [hb, hm]

theorem executeRestCallStep_fail_eq (beh : ClientBehavior) (opt : RunnerOptions)
    (fs : StepRestCall) (env : VariableEnv) (st : RState) (req : ApiScenarioClientRequest)
    (msg : String)
    (hb : buildRestCallRequest fs = Except.ok req)
    (hm : beh.sendRestCallResult fs.step = some msg) :
    executeRestCallStep beh opt fs env st
      = (logEvent st (Event.sendRestCallRequest fs.step), Except.error msg) := by
  unfold executeRestCallStep
  rw [hb, hm]

theorem executeRestCallStep_builderr_eq (beh : ClientBehavior) (opt : RunnerOptions)
    (fs : StepRestCall) (env : VariableEnv) (st : RState) (e : String)
    (hb : buildRestCallRequest fs = Except.error e) :
    executeRestCallStep beh opt fs env st = (st, Except.error e) := by
  unfold executeRestCallStep
  rw [hb]

theorem executeArmTemplateStep_ok_eq (beh : ClientBehavior) (opt : RunnerOptions)
    (ts : StepArmTemplate) (env : VariableEnv) (scope : Scope) (st : RState)
    (sub rg : String)
    (hsub : env.getRequiredString "subscriptionId" = Except.ok sub)
    (hrg : env.getRequiredString "resourceGroupName" = Except.ok rg)
    (hm : beh.sendArmTemplateResult ts.step = none) :
    executeArmTemplateStep beh opt ts env scope st
      = (logEvent { st with randCounter := st.randCounter + 1 }
          (Event.sendArmTemplateDeployment ts.step
            (rg ++ "-deploy-" ++ getRandomString st.randCounter)), Except.ok ()) := by
  unfold executeArmTemplateStep
  rw [hsub, hrg, hm]
  rfl

theorem executeArmTemplateStep_fail_eq (beh : ClientBehavior) (opt : RunnerOptions)
    (ts : StepArmTemplate) (env : VariableEnv) (scope : Scope) (st : RState)
    (sub rg msg : String)
    (hsub : env.getRequiredString "subscriptionId" = Except.ok sub)
    (hrg : env.getRequiredString "resourceGroupName" = Except.ok rg)
    (hm : beh.sendArmTemplateResult ts.step = some msg) :
    executeArmTemplateStep beh opt ts env scope st
      = (logEvent { st with randCounter := st.randCounter + 1 }
          (Event.sendArmTemplateDeployment ts.step
            (rg ++ "-deploy-" ++ getRandomString st.randCounter)), Except.error msg) := by
  unfold executeArmTemplateStep
  rw [hsub, hrg, hm]
  rfl

theorem executeArmTemplateStep_nosub_eq (beh : ClientBehavior) (opt : RunnerOptions)
    (ts : StepArmTemplate) (env : VariableEnv) (scope : Scope) (st : RState) (e : String)
    (hsub : env.getRequiredString "subscriptionId" = Except.error e) :
    executeArmTemplateStep beh opt ts env scope st = (st, Except.error e) := by
  unfold executeArmTemplateStep
  rw [hsub]

theorem executeArmTemplateStep_norg_eq (beh : ClientBehavior) (opt : RunnerOptions)
    (ts : StepArmTemplate) (env : VariableEnv) (scope : Scope) (st : RState)
    (sub e : String)
    (hsub : env.getRequiredString "subscriptionId" = Except.ok sub)
    (hrg : env.getRequiredString "resourceGroupName" = Except.error e) :
    executeArmTemplateStep beh opt ts env scope st = (st, Except.error e) := by
  unfold executeArmTemplateStep
  rw [hsub, hrg]

theorem executeStep_restCall_ok_eq (beh : ClientBehavior) (opt : RunnerOptions)
    (fs : StepRestCall) (env : VariableEnv) (scope : Scope) (st : RState)
    (req : ApiScenarioClientRequest)
    (hb : buildRestCallRequest fs = Except.ok req)
    (hm : beh.sendRestCallResult fs.step = none) :
    executeStep beh opt (Step.restCall fs) env scope st
      = (logEvent { st with randCounter := stepEnvCounter (Step.restCall fs) env st.randCounter }
          (Event.sendRestCallRequest fs.step), Except.ok ()) := by
  unfold executeStep
  dsimp only [Step.name]
  rw [executeRestCallStep_ok_eq beh opt fs _ _ req hb hm]

theorem executeStep_restCall_fail_eq (beh : ClientBehavior) (opt : RunnerOptions)
    (fs : StepRestCall) (env : VariableEnv) (scope : Scope) (st : RState)
    (req : ApiScenarioClientRequest) (msg : String)
    (hb : buildRestCallRequest fs = Except.ok req)
    (hm : beh.sendRestCallResult fs.step = some msg) :
    executeStep beh opt (Step.restCall fs) env scope st
      = (logEvent { st with randCounter := stepEnvCounter (Step.restCall fs) env st.randCounter }
          (Event.sendRestCallRequest fs.step),
         Except.error ("Failed to execute step " ++ fs.step ++ ": " ++ msg)) := by
  unfold executeStep
  dsimp only [Step.name]
  rw [executeRestCallStep_fail_eq beh opt fs _ _ req msg hb hm]

theorem executeStep_restCall_builderr_eq (beh : ClientBehavior) (opt : RunnerOptions)
    (fs : StepRestCall) (env : VariableEnv) (scope : Scope) (st : RState) (e : String)
    (hb : buildRestCallRequest fs = Except.error e) :
    executeStep beh opt (Step.restCall fs) env scope st
      = ({ st with randCounter := stepEnvCounter (Step.restCall fs) env st.randCounter },
         Except.error ("Failed to execute step " ++ fs.step ++ ": " ++ e)) := by
  unfold executeStep
  dsimp only [Step.name]
  rw [executeRestCallStep_builderr_eq beh opt fs _ _ e hb]

theorem executeStep_arm_ok_eq (beh : ClientBehavior) (opt : RunnerOptions)
    (ts : StepArmTemplate) (env : VariableEnv) (scope : Scope) (st : RState)
    (sub rg : String)
    (hsub : (stepEnvOf opt (Step.armTemplateDeployment ts) env st.randCounter).getRequiredString
        "subscriptionId" = Except.ok sub)
    (hrg : (stepEnvOf opt (Step.armTemplateDeployment ts) env st.randCounter).getRequiredString
        "resourceGroupName" = Except.ok rg)
    (hm : beh.sendArmTemplateResult ts.step = none) :
    executeStep beh opt (Step.armTemplateDeployment ts) env scope st
      = (logEvent { st with randCounter := stepEnvCounter (Step.armTemplateDeployment ts) env st.randCounter + 1 }
          (Event.sendArmTemplateDeployment ts.step
            (rg ++ "-deploy-" ++ getRandomString
              (stepEnvCounter (Step.armTemplateDeployment ts) env st.randCounter))),
         Except.ok ()) := by
  unfold executeStep
  dsimp only [Step.name]
  rw [executeArmTemplateStep_ok_eq beh opt ts _ scope _ sub rg hsub hrg hm]

theorem executeStep_arm_fail_eq (beh : ClientBehavior) (opt : RunnerOptions)
    (ts : StepArmTemplate) (env : VariableEnv) (scope : Scope) (st : RState)
    (sub rg msg : String)
    (hsub : (stepEnvOf opt (Step.armTemplateDeployment ts) env st.randCounter).getRequiredString
        "subscriptionId" = Except.ok sub)
    (hrg : (stepEnvOf opt (Step.armTemplateDeployment ts) env st.randCounter).getRequiredString
        "resourceGroupName" = Except.ok rg)
    (hm : beh.sendArmTemplateResult ts.step = some msg) :
    executeStep beh opt (Step.armTemplateDeployment ts) env scope st
      = (logEvent { st with randCounter := stepEnvCounter (Step.armTemplateDeployment ts) env st.randCounter + 1 }
          (Event.sendArmTemplateDeployment ts.step
            (rg ++ "-deploy-" ++ getRandomString
              (stepEnvCounter (Step.armTemplateDeployment ts) env st.randCounter))),
         Except.error ("Failed to execute step " ++ ts.step ++ ": " ++ msg)) := by
  unfold executeStep
  dsimp only [Step.name]
  rw [executeArmTemplateStep_fail_eq beh opt ts _ scope _ sub rg msg hsub hrg hm]

theorem executeStep_arm_nosub_eq (beh : ClientBehavior) (opt : RunnerOptions)
    (ts : StepArmTemplate) (env : VariableEnv) (scope : Scope) (st : RState) (e : String)
    (hsub : (stepEnvOf opt (Step.armTemplateDeployment ts) env st.randCounter).getRequiredString
        "subscriptionId" = Except.error e) :
    executeStep beh opt (Step.armTemplateDeployment ts) env scope st
      = ({ st with randCounter := stepEnvCounter (Step.armTemplateDeployment ts) env st.randCounter },
         Except.error ("Failed to execute step " ++ ts.step ++ ": " ++ e)) := by
  unfold executeStep
  dsimp only [Step.name]
  rw [executeArmTemplateStep_nosub_eq beh opt ts _ scope _ e hsub]

theorem executeStep_arm_norg_eq (beh : ClientBehavior) (opt : RunnerOptions)
    (ts : StepArmTemplate) (env : VariableEnv) (scope : Scope) (st : RState)
    (sub e : String)
    (hsub : (stepEnvOf opt (Step.armTemplateDeployment ts) env st.randCounter).getRequiredString
        "subscriptionId" = Except.ok sub)
    (hrg : (stepEnvOf opt (Step.armTemplateDeployment ts) env st.randCounter).getRequiredString
        "resourceGroupName" = Except.error e) :
    executeStep beh opt (Step.armTemplateDeployment ts) env scope st
      = ({ st with randCounter := stepEnvCounter (Step.armTemplateDeployment ts) env st.randCounter },
         Except.error ("Failed to execute step " ++ ts.step ++ ": " ++ e)) := by
  unfold executeStep
  dsimp only [Step.name]
  rw [executeArmTemplateStep_norg_eq beh opt ts _ scope _ sub e hsub hrg]

theorem executeStep_ok_dispatched (beh : ClientBehavior) (opt : RunnerOptions)
    (s : Step) (env : VariableEnv) (scope : Scope) (st : RState)
    (h : (executeStep beh opt s env scope st).2 = Except.ok ()) :
    dispatchedSteps (executeStep beh opt s env scope st).1.events
      = dispatchedSteps st.events ++ [s.name] := by
  cases s with
  | restCall fs =>
    rcases hb : buildRestCallRequest fs with e | req
    · rw [executeStep_restCall_builderr_eq beh opt fs env scope st e hb] at h
      simp at h
    · rcases hm : beh.sendRestCallResult fs.step with _ | msg
      · rw [executeStep_restCall_ok_eq beh opt fs env scope st req hb hm]
        simp [logEvent, dispatchedSteps_append, dispatchedSteps, Event.dispatchedStep?, Step.name]
      · rw [executeStep_restCall_fail_eq beh opt fs env scope st req msg hb hm] at h
        simp at h
  | armTemplateDeployment ts =>
    rcases hsub : (stepEnvOf opt (Step.armTemplateDeployment ts) env st.randCounter).getRequiredString "subscriptionId" with e | sub
    · rw [executeStep_arm_nosub_eq beh opt ts env scope st e hsub] at h
      simp at h
    · rcases hrg : (stepEnvOf opt (Step.armTemplateDeployment ts) env st.randCounter).getRequiredString "resourceGroupName" with e | rg
      · rw [executeStep_arm_norg_eq beh opt ts env scope st sub e hsub hrg] at h
        simp at h
      · rcases hm : beh.sendArmTemplateResult ts.step with _ | msg
        · rw [executeStep_arm_ok_eq beh opt ts env scope st sub rg hsub hrg hm]
          simp [logEvent, dispatchedSteps_append, dispatchedSteps, Event.dispatchedStep?, Step.name]
        · rw [executeStep_arm_fail_eq beh opt ts env scope st sub rg msg hsub hrg hm] at h
          simp at h

theorem executeStep_new_events (beh : ClientBehavior) (opt : RunnerOptions)
    (s : Step) (env : VariableEnv) (scope : Scope) (st : RState) :
    ∃ es, (executeStep beh opt s env scope st).1.events = st.events ++ es
      ∧ deleteRequests es = []
      ∧ ∀ x ∈ dispatchedSteps es, x = s.name := by
  cases s with
  | restCall fs =>
    rcases hb : buildRestCallRequest fs with e | req
    · rw [executeStep_restCall_builderr_eq beh opt fs env scope st e hb]
      exact ⟨[], by simp, by simp [deleteRequests], by simp [dispatchedSteps]⟩
    · rcases hm : beh.sendRestCallResult fs.step with _ | msg
      · rw [executeStep_restCall_ok_eq beh opt fs env scope st req hb hm]
        refine ⟨[Event.sendRestCallRequest fs.step], by simp [logEvent], ?_, ?_⟩
        · simp [deleteRequests]
        · simp [dispatchedSteps, Event.dispatchedStep?, Step.name]
      · rw [executeStep_restCall_fail_eq beh opt fs env scope st req msg hb hm]
        refine ⟨[Event.sendRestCallRequest fs.step], by simp [logEvent], ?_, ?_⟩
        · simp [deleteRequests]
        · simp [dispatchedSteps, Event.dispatchedStep?, Step.name]
  | armTemplateDeployment ts =>
    rcases hsub : (stepEnvOf opt (Step.armTemplateDeployment ts) env st.randCounter).getRequiredString "subscriptionId" with e | sub
    · rw [executeStep_arm_nosub_eq beh opt ts env scope st e hsub]
      exact ⟨[], by simp, by simp [deleteRequests], by simp [dispatchedSteps]⟩
    · rcases hrg : (stepEnvOf opt (Step.armTemplateDeployment ts) env st.randCounter).getRequiredString "resourceGroupName" with e | rg
      · rw [executeStep_arm_norg_eq beh opt ts env scope st sub e hsub hrg]
        exact ⟨[], by simp, by simp [deleteRequests], by simp [dispatchedSteps]⟩
      · rcases hm : beh.sendArmTemplateResult ts.step with _ | msg
        · rw [executeStep_arm_ok_eq beh opt ts env scope st sub rg hsub hrg hm]
          refine ⟨[Event.sendArmTemplateDeployment ts.step (rg ++ "-deploy-" ++ getRandomString (stepEnvCounter (Step.armTemplateDeployment ts) env st.randCounter))], by simp [logEvent], ?_, ?_⟩
          · simp [deleteRequests]
          · simp [dispatchedSteps, Event.dispatchedStep?, Step.name]
        · rw [executeStep_arm_fail_eq beh opt ts env scope st sub rg msg hsub hrg hm]
          refine ⟨[Event.sendArmTemplateDeployment ts.step (rg ++ "-deploy-" ++ getRandomString (stepEnvCounter (Step.armTemplateDeployment ts) env st.randCounter))], by simp [logEvent], ?_, ?_⟩
          · simp [deleteRequests]
          · simp [dispatchedSteps, Event.dispatchedStep?, Step.name]

theorem runSteps_append (beh : ClientBehavior) (opt : RunnerOptions)
    (a b : List Step) (env : VariableEnv) (scope : Scope) (st : RState) :
    runSteps beh opt (a ++ b) env scope st
      = (match runSteps beh opt a env scope st with
         | (st', Except.ok _) => runSteps beh opt b env scope st'
         | (st', Except.error e) => (st', Except.error e)) := by
  induction a generalizing st with
  | nil => simp [runSteps]
  | cons s rest ih =>
    simp only [List.cons_append, runSteps]
    rcases hx : executeStep beh opt s env scope st with ⟨st2, r⟩
    cases r with
    | ok u => simpa using ih st2
    | error e => simp

theorem runSteps_ok_dispatched (beh : ClientBehavior) (opt : RunnerOptions) :
    ∀ (steps : List Step) (env : VariableEnv) (scope : Scope) (st : RState),
    (runSteps beh opt steps env scope st).2 = Except.ok () →
    dispatchedSteps (runSteps beh opt steps env scope st).1.events
      = dispatchedSteps st.events ++ steps.map Step.name := by
  intro steps
  induction steps with
  | nil => intro env scope st h; simp [runSteps]
  | cons s rest ih =>
    intro env scope st h
    simp only [runSteps] at h ⊢
    cases hx : executeStep beh opt s env scope st with
    | mk st2 r =>
      rw [hx] at h
      cases r with
      | error e => simp at h
      | ok u =>
        cases u
        have h2 : (executeStep beh opt s env scope st).2 = Except.ok () := by rw [hx]
        have hd := executeStep_ok_dispatched beh opt s env scope st h2
        rw [hx] at hd
        dsimp only [] at h hd ⊢
        simp only [List.map_cons]
        rw [ih env scope st2 h, hd]
        simp

theorem runSteps_new_events (beh : ClientBehavior) (opt : RunnerOptions) :
    ∀ (steps : List Step) (env : VariableEnv) (scope : Scope) (st : RState),
    ∃ es, (runSteps beh opt steps env scope st).1.events = st.events ++ es
      ∧ deleteRequests es = []
      ∧ ∀ x ∈ dispatchedSteps es, x ∈ steps.map Step.name := by
  intro steps
  induction steps with
  | nil =>
    intro env scope st
    exact ⟨[], by simp [runSteps], by simp [deleteRequests], by simp [dispatchedSteps]⟩
  | cons s rest ih =>
    intro env scope st
    simp only [runSteps]
    cases hx : executeStep beh opt s env scope st with
    | mk st2 r =>
      obtain ⟨es1, he1, hd1, hs1⟩ := executeStep_new_events beh opt s env scope st
      rw [hx] at he1
      cases r with
      | error e =>
        refine ⟨es1, by simpa using he1, hd1, ?_⟩
        intro x hx2
        simp only [List.map_cons, List.mem_cons]
        exact Or.inl (hs1 x hx2)
      | ok u =>
        cases u
        obtain ⟨es2, he2, hd2, hs2⟩ := ih env scope st2
        refine ⟨es1 ++ es2, ?_, ?_, ?_⟩
        · dsimp only []
          rw [he2, he1]
          simp
        · rw [deleteRequests_append, hd1, hd2]
          simp
        · intro x hx2
          rw [dispatchedSteps_append] at hx2
          simp only [List.mem_append] at hx2
          simp only [List.map_cons, List.mem_cons]
          rcases hx2 with hx2 | hx2
          · exact Or.inl (hs1 x hx2)
          · exact Or.inr (hs2 x hx2)

theorem runSteps_stop (beh : ClientBehavior) (opt : RunnerOptions)
    (pre post : List Step) (f : Step) (env : VariableEnv) (scope : Scope)
    (st st6 st7 : RState) (em : String)
    (hpre : runSteps beh opt pre env scope st = (st6, Except.ok ()))
    (hf : executeStep beh opt f env scope st6 = (st7, Except.error em)) :
    runSteps beh opt (pre ++ f :: post) env scope st = (st7, Except.error em)
    ∧ runSteps beh opt (pre ++ [f]) env scope st = (st7, Except.error em) := by
  constructor
  · rw [runSteps_append, hpre]
    simp only [runSteps]
    rw [hf]
  · rw [runSteps_append, hpre]
    simp only [runSteps]
    rw [hf]

theorem doProvisionScope_ok_dispatched (beh : ClientBehavior) (opt : RunnerOptions)
    (scope : Scope) (st : RState) (hp : scope.provisioned = false)
    (h : (doProvisionScope beh opt scope st).2.2 = Except.ok ()) :
    dispatchedSteps (doProvisionScope beh opt scope st).2.1.events
      = dispatchedSteps st.events ++ scope.prepareSteps.map Step.name := by
  unfold doProvisionScope at h ⊢
  rw [hp] at h ⊢
  simp only [Bool.false_eq_true, if_false] at h ⊢
  by_cases ht : scope.type = "ResourceGroup"
  · rw [if_pos ht] at h ⊢
    cases hsub : scope.env.getRequiredString "subscriptionId" with
    | error e =>
      rw [hsub] at h
      simp at h
    | ok sub =>
      rw [hsub] at h
      dsimp only [] at h ⊢
      cases hrg : scope.env.getRequiredString "resourceGroupName" with
      | error e =>
        rw [hrg] at h
        simp at h
      | ok rg =>
        rw [hrg] at h
        dsimp only [] at h ⊢
        cases hloc : scope.env.getRequiredString "location" with
        | error e =>
          rw [hloc] at h
          simp at h
        | ok loc =>
          rw [hloc] at h
          dsimp only [] at h ⊢
          cases hcr : beh.createResourceGroupResult sub rg loc with
          | some msg =>
            rw [hcr] at h
            simp at h
          | none =>
            rw [hcr] at h
            dsimp only [] at h ⊢
            cases hrs : runSteps beh opt scope.prepareSteps scope.env scope
                (logEvent st (Event.createResourceGroup sub rg loc)) with
            | mk st2 r =>
              rw [hrs] at h
              cases r with
              | error e => simp at h
              | ok u =>
                cases u
                have h2 : (runSteps beh opt scope.prepareSteps scope.env scope
                    (logEvent st (Event.createResourceGroup sub rg loc))).2 = Except.ok () := by
                  rw [hrs]
                have hd := runSteps_ok_dispatched beh opt scope.prepareSteps scope.env scope
                  (logEvent st (Event.createResourceGroup sub rg loc)) h2
                rw [hrs] at hd
                dsimp only [] at hd ⊢
                rw [hd]
                simp [logEvent, dispatchedSteps_append, dispatchedSteps, Event.dispatchedStep?]
  · rw [if_neg ht] at h ⊢
    dsimp only [] at h ⊢
    cases hrs : runSteps beh opt scope.prepareSteps scope.env scope st with
    | mk st2 r =>
      rw [hrs] at h
      cases r with
      | error e => simp at h
      | ok u =>
        cases u
        have h2 : (runSteps beh opt scope.prepareSteps scope.env scope st).2 = Except.ok () := by
          rw [hrs]
        have hd := runSteps_ok_dispatched beh opt scope.prepareSteps scope.env scope st h2
        rw [hrs] at hd
        dsimp only [] at hd ⊢
        rw [hd]

theorem doProvisionScope_new_events (beh : ClientBehavior) (opt : RunnerOptions)
    (scope : Scope) (st : RState) :
    ∃ es, (doProvisionScope beh opt scope st).2.1.events = st.events ++ es
      ∧ deleteRequests es = []
      ∧ ∀ x ∈ dispatchedSteps es, x ∈ scope.prepareSteps.map Step.name := by
  unfold doProvisionScope
  by_cases hp : scope.provisioned = true
  · rw [hp]
    exact ⟨[], by simp, by simp [deleteRequests], by simp [dispatchedSteps]⟩
  · rw [Bool.not_eq_true] at hp
    rw [hp]
    simp only [Bool.false_eq_true, if_false]
    by_cases ht : scope.type = "ResourceGroup"
    · rw [if_pos ht]
      cases hsub : scope.env.getRequiredString "subscriptionId" with
      | error e =>
        exact ⟨[], by simp, by simp [deleteRequests], by simp [dispatchedSteps]⟩
      | ok sub =>
        dsimp only []
        cases hrg : scope.env.getRequiredString "resourceGroupName" with
        | error e =>
          exact ⟨[], by simp, by simp [deleteRequests], by simp [dispatchedSteps]⟩
        | ok rg =>
          dsimp only []
          cases hloc : scope.env.getRequiredString "location" with
          | error e =>
            exact ⟨[], by simp, by simp [deleteRequests], by simp [dispatchedSteps]⟩
          | ok loc =>
            dsimp only []
            cases hcr : beh.createResourceGroupResult sub rg loc with
            | some msg =>
              refine ⟨[Event.createResourceGroup sub rg loc], by simp [logEvent], ?_, ?_⟩
              · simp [deleteRequests]
              · simp [dispatchedSteps, Event.dispatchedStep?]
            | none =>
              dsimp only []
              obtain ⟨es, he, hdel, hsub2⟩ := runSteps_new_events beh opt scope.prepareSteps
                scope.env scope (logEvent st (Event.createResourceGroup sub rg loc))
              cases hrs : runSteps beh opt scope.prepareSteps scope.env scope
                  (logEvent st (Event.createResourceGroup sub rg loc)) with
              | mk st2 r =>
                rw [hrs] at he
                cases r with
                | error e =>
                  refine ⟨Event.createResourceGroup sub rg loc :: es, ?_, ?_, ?_⟩
                  · dsimp only []
                    dsimp only [] at he
                    rw [he]
                    simp [logEvent]
                  · simp only [deleteRequests] at hdel ⊢
                    simp [hdel]
                  · intro x hx
                    simp only [dispatchedSteps, List.filterMap_cons, Event.dispatchedStep?] at hx
                    exact hsub2 x hx
                | ok u =>
                  cases u
                  refine ⟨Event.createResourceGroup sub rg loc :: es, ?_, ?_, ?_⟩
                  · dsimp only []
                    dsimp only [] at he
                    rw [he]
                    simp [logEvent]
                  · simp only [deleteRequests] at hdel ⊢
                    simp [hdel]
                  · intro x hx
                    simp only [dispatchedSteps, List.filterMap_cons, Event.dispatchedStep?] at hx
                    exact hsub2 x hx
    · rw [if_neg ht]
      dsimp only []
      obtain ⟨es, he, hdel, hsub2⟩ := runSteps_new_events beh opt scope.prepareSteps
        scope.env scope st
      cases hrs : runSteps beh opt scope.prepareSteps scope.env scope st with
      | mk st2 r =>
        rw [hrs] at he
        cases r with
        | error e => exact ⟨es, by dsimp only []; exact he, hdel, hsub2⟩
        | ok u =>
          cases u
          exact ⟨es, by dsimp only []; exact he, hdel, hsub2⟩

theorem cleanUpScope_ok_dispatched (beh : ClientBehavior) (opt : RunnerOptions)
    (scope : Scope) (st : RState)
    (h : (cleanUpScope beh opt scope st).2 = Except.ok ()) :
    dispatchedSteps (cleanUpScope beh opt scope st).1.events
      = dispatchedSteps st.events ++ scope.cleanUpSteps.map Step.name := by
  unfold cleanUpScope at h ⊢
  cases hrs : runSteps beh opt scope.cleanUpSteps scope.env scope st with
  | mk st2 r =>
    rw [hrs] at h
    cases r with
    | error e => simp at h
    | ok u =>
      cases u
      have h2 : (runSteps beh opt scope.cleanUpSteps scope.env scope st).2 = Except.ok () := by
        rw [hrs]
      have hd := runSteps_ok_dispatched beh opt scope.cleanUpSteps scope.env scope st h2
      rw [hrs] at hd
      dsimp only [] at hd h ⊢
      by_cases ht : scope.type = "ResourceGroup"
      · rw [if_pos ht] at h ⊢
        cases hsub : scope.env.getRequiredString "subscriptionId" with
        | error e =>
          rw [hsub] at h
          simp at h
        | ok sub =>
          rw [hsub] at h
          dsimp only [] at h ⊢
          cases hrg : scope.env.getRequiredString "resourceGroupName" with
          | error e =>
            rw [hrg] at h
            simp at h
          | ok rg =>
            rw [hrg] at h
            dsimp only [] at h ⊢
            cases hdr : beh.deleteResourceGroupResult sub rg with
            | some msg =>
              rw [hdr] at h
              simp at h
            | none =>
              dsimp only []
              rw [← hd]
              simp [logEvent, dispatchedSteps_append, dispatchedSteps, Event.dispatchedStep?]
      · rw [if_neg ht]
        exact hd

theorem prepareScope_events (opt : RunnerOptions) (sc : Scenario)
    (scenarioDef : ScenarioDefinition) (st : RState) :
    (prepareScope opt sc scenarioDef st).2.events = st.events := by
  unfold prepareScope
  by_cases hs : sc.shareScope = true
  · rw [hs]
    dsimp only []
    split
    next => rfl
    next =>
      split
      next => rfl
      next => rfl
  · rw [Bool.not_eq_true] at hs
    rw [hs]
    dsimp only []
    split
    next => rfl
    next =>
      split
      next => rfl
      next => rfl

theorem scenarioPhaseEnv_events (sc : Scenario) (scope : Scope) (st : RState) :
    (scenarioPhaseEnv sc scope st).2.events = st.events := rfl

/-! The claims. -/

/-- C8: for every string or secureString variable in an environment layer that
has a prefix and no value, running prefix materialization
(generateValueFromPrefix) twice in sequence assigns the variable the same
generated value both times: the second run changes nothing — neither the
environment (so every value generated by the first run is kept as is) nor the
random counter. -/
theorem generateValueFromPrefix_twice_noop (env : VariableEnv) (c : Nat) :
    generateValueFromPrefix (generateValueFromPrefix env c).1
        (generateValueFromPrefix env c).2
      = generateValueFromPrefix env c := by
  rw [generateValueFromPrefix_stable env c (generateValueFromPrefix env c).2]

/-- C1: for every Scope object, invoking the provisioning routine
(doProvisionScope) n > 1 times executes the scope's prepare steps exactly
once — the n-fold iteration equals the single first call (same scope, state
and event log), provided that first call completes — and a provisioned scope
never returns to the unprovisioned state: on a scope whose status is already
provisioned the routine is the identity. -/
theorem doProvisionScope_runs_once (beh : ClientBehavior) (opt : RunnerOptions)
    (scope : Scope) (st : RState) (n : Nat) (hn : 1 ≤ n)
    (hok : (doProvisionScope beh opt scope st).2.2 = Except.ok ()) :
    provisionIter beh opt n scope st = doProvisionScope beh opt scope st
    ∧ (provisionIter beh opt n scope st).1.provisioned = true
    ∧ (∀ (scope2 : Scope) (st2 : RState), scope2.provisioned = true →
        doProvisionScope beh opt scope2 st2 = (scope2, st2, Except.ok ())) := by
  have hprov := doProvisionScope_ok_provisioned beh opt scope st hok
  have key : ∀ m, 1 ≤ m →
      provisionIter beh opt m scope st = doProvisionScope beh opt scope st := by
    intro m hm
    induction m with
    | zero => omega
    | succ k ih =>
      cases k with
      | zero => rfl
      | succ j =>
        simp only [provisionIter]
        rcases hr : doProvisionScope beh opt scope st with ⟨scope1, st1, r1⟩
        have h1 : scope1.provisioned = true := by rw [hr] at hprov; exact hprov
        rw [provisionIter_memo beh opt (j + 1) scope1 st1 h1]
        rw [hr] at hok
        simp at hok
        rw [hok]
  refine ⟨key n hn, ?_, ?_⟩
  · rw [key n hn]; exact hprov
  · intro scope2 st2 h2; exact doProvisionScope_memo beh opt scope2 st2 h2

/-- C7: two scenario executions in sequence with shareScope = true resolve to
the same Runtime Scope — both prepareScope calls yield the scope name
"_defaultScope", the second returns exactly the scope object the first left in
the registry, and leaves the state untouched; with shareScope = false the two
calls yield distinct, differently named scopes. -/
theorem prepareScope_shareScope_resolution (opt : RunnerOptions)
    (sc1 sc2 : Scenario) (def1 def2 : ScenarioDefinition)
    (st st1 st2 : RState) (n1 n2 : String) (scope1 scope2 : Scope) :
    (sc1.shareScope = true → sc2.shareScope = true →
      prepareScope opt sc1 def1 st = (Except.ok (n1, scope1), st1) →
      prepareScope opt sc2 def2 st1 = (Except.ok (n2, scope2), st2) →
      n1 = "_defaultScope" ∧ n2 = "_defaultScope" ∧ scope2 = scope1 ∧ st2 = st1)
    ∧ (sc1.shareScope = false → sc2.shareScope = false →
      prepareScope opt sc1 def1 st = (Except.ok (n1, scope1), st1) →
      prepareScope opt sc2 def2 st1 = (Except.ok (n2, scope2), st2) →
      n1 ≠ n2) := by
  constructor
  · intro hs1 hs2 h1 h2
    obtain ⟨hn1, hl⟩ := prepareScope_share opt sc1 def1 st n1 scope1 st1 hs1 h1
    have hhit := prepareScope_share_hit opt sc2 def2 st1 scope1 hs2 hl
    rw [h2] at hhit
    simp only [Prod.mk.injEq, Except.ok.injEq] at hhit
    obtain ⟨⟨e1, e2⟩, e3⟩ := hhit
    exact ⟨hn1, e1, e2, e3⟩
  · intro hs1 hs2 h1 h2
    obtain ⟨hn1, hc1⟩ := prepareScope_random opt sc1 def1 st n1 scope1 st1 hs1 h1
    obtain ⟨hn2, hc2⟩ := prepareScope_random opt sc2 def2 st1 n2 scope2 st2 hs2 h2
    rw [hn1, hn2]
    exact randName_injective (Nat.ne_of_lt hc1)

/-- C9: when the external client's scenario-preparation hook fails, or the
scope-provisioning routine fails, executeScenario propagates that failure
without executing any cleanup step and without requesting resource-container
deletion, even though cleanup is not suppressed: on a hook failure the result
state is exactly the state at the hook call (no new step dispatches, no new
deletion requests); on a provisioning failure the result is exactly
provisioning's own state, whose deletion requests are the caller's and whose
step dispatches beyond the caller's all come from the scope's prepare list. -/
theorem executeScenario_prefail_no_cleanup (beh : ClientBehavior)
    (opt : RunnerOptions) (scenarioDef : ScenarioDefinition) (sc : Scenario)
    (st : RState) (sn : String) (scope : Scope) (st1 : RState)
    (hprep : prepareScope opt sc scenarioDef st = (Except.ok (sn, scope), st1)) :
    (∀ msg, beh.prepareScenarioResult sc.scenario = some msg →
      executeScenario beh opt scenarioDef sc st
        = (logEvent (scenarioPhaseEnv sc scope st1).2 (Event.prepareScenario sc.scenario),
           Except.error msg)
      ∧ dispatchedSteps (executeScenario beh opt scenarioDef sc st).1.events
          = dispatchedSteps st.events
      ∧ deleteRequests (executeScenario beh opt scenarioDef sc st).1.events
          = deleteRequests st.events)
    ∧ (∀ em scope2 st4, beh.prepareScenarioResult sc.scenario = none →
      doProvisionScope beh opt scope
          (logEvent (scenarioPhaseEnv sc scope st1).2 (Event.prepareScenario sc.scenario))
        = (scope2, st4, Except.error em) →
      executeScenario beh opt scenarioDef sc st = (st4, Except.error em)
      ∧ deleteRequests st4.events = deleteRequests st.events
      ∧ ∀ x ∈ dispatchedSteps st4.events,
          x ∈ dispatchedSteps st.events ∨ x ∈ scope.prepareSteps.map Step.name) := by
  have hev1 : st1.events = st.events := by
    have := prepareScope_events opt sc scenarioDef st
    rw [hprep] at this
    exact this
  have hev2 : (scenarioPhaseEnv sc scope st1).2.events = st.events := by
    rw [scenarioPhaseEnv_events, hev1]
  constructor
  · intro msg hmsg
    have hrun : executeScenario beh opt scenarioDef sc st
        = (logEvent (scenarioPhaseEnv sc scope st1).2 (Event.prepareScenario sc.scenario),
           Except.error msg) := by
      unfold executeScenario
      rw [hprep]
      dsimp only []
      rw [hmsg]
    refine ⟨hrun, ?_, ?_⟩
    · rw [hrun]
      dsimp only []
      simp [logEvent, hev2, dispatchedSteps_append, dispatchedSteps, Event.dispatchedStep?]
    · rw [hrun]
      dsimp only []
      simp [logEvent, hev2, deleteRequests_append, deleteRequests]
  · intro em scope2 st4 hmsg hprov
    have hrun : executeScenario beh opt scenarioDef sc st = (st4, Except.error em) := by
      unfold executeScenario
      rw [hprep]
      dsimp only []
      rw [hmsg, hprov]
    obtain ⟨es, he, hdel, hdisp⟩ := doProvisionScope_new_events beh opt scope
      (logEvent (scenarioPhaseEnv sc scope st1).2 (Event.prepareScenario sc.scenario))
    rw [hprov] at he
    dsimp only [] at he
    refine ⟨hrun, ?_, ?_⟩
    · rw [he, deleteRequests_append, hdel]
      have h0 : deleteRequests (logEvent (scenarioPhaseEnv sc scope st1).2
          (Event.prepareScenario sc.scenario)).events = deleteRequests st.events := by
        simp [logEvent, hev2, deleteRequests_append, deleteRequests]
      rw [h0]
      simp
    · intro x hx
      rw [he] at hx
      rw [dispatchedSteps_append] at hx
      simp only [List.mem_append] at hx
      rcases hx with hx | hx
      · left
        have : dispatchedSteps (logEvent (scenarioPhaseEnv sc scope st1).2
            (Event.prepareScenario sc.scenario)).events = dispatchedSteps st.events := by
          simp [logEvent, hev2, dispatchedSteps_append, dispatchedSteps, Event.dispatchedStep?]
        rw [this] at hx
        exact hx
      · right
        exact hdisp x hx

theorem executeScenario_fail_run (beh : ClientBehavior) (opt : RunnerOptions)
    (scenarioDef : ScenarioDefinition) (sc : Scenario) (st : RState)
    (sn : String) (scope scopeP : Scope) (st1 st4 st7 : RState) (em : String)
    (hskip : opt.skipCleanUp = false)
    (hprep : prepareScope opt sc scenarioDef st = (Except.ok (sn, scope), st1))
    (hhook : beh.prepareScenarioResult sc.scenario = none)
    (hprov : doProvisionScope beh opt scope
        (logEvent (scenarioPhaseEnv sc scope st1).2 (Event.prepareScenario sc.scenario))
      = (scopeP, st4, Except.ok ()))
    (hrs : runSteps beh opt sc.steps (scenarioPhaseEnv sc scope st1).1 scopeP
        { st4 with scopeTracking := jsInsert st4.scopeTracking sn scopeP }
      = (st7, Except.error em))
    (hclean : (cleanUpScope beh opt scopeP st7).2 = Except.ok ()) :
    executeScenario beh opt scenarioDef sc st
      = ((cleanUpScope beh opt scopeP st7).1,
         Except.error ("Failed to execute scenario: " ++ sc.scenario ++ ": " ++ em)) := by
  unfold executeScenario
  rw [hprep]
  dsimp only []
  rw [hhook, hprov]
  dsimp only []
  rw [hrs]
  dsimp only []
  rw [hskip]
  simp only [Bool.false_eq_true, if_false]
  cases hcu : cleanUpScope beh opt scopeP st7 with
  | mk st8 r =>
    rw [hcu] at hclean
    cases r with
    | error e => simp at hclean
    | ok u => cases u; rfl

/-- C2: when step k of a scenario's steps fails, the following steps are not
executed and — skipCleanUp not being set — every cleanup step of the scope
still executes afterwards. With the scenario's steps split as
pre ++ [failing step] ++ post, the preceding steps succeeding, the failing
REST call rejected by the client and the cleanup steps succeeding: the run's
step dispatches are exactly the prepare steps, the preceding steps, the failed
attempt and then every cleanup step of the scope (nothing from post), the
result is the wrapped error, and the whole execution equals the execution of
the scenario with post removed. -/
theorem executeScenario_step_failure_cleanup (beh : ClientBehavior)
    (opt : RunnerOptions) (scenarioDef : ScenarioDefinition) (sc : Scenario)
    (st : RState) (pre post : List Step) (fs : StepRestCall)
    (req : ApiScenarioClientRequest) (m : String) (sn : String)
    (scope scopeP : Scope) (st1 st4 st6 : RState)
    (hskip : opt.skipCleanUp = false)
    (hsteps : sc.steps = pre ++ Step.restCall fs :: post)
    (hprep : prepareScope opt sc scenarioDef st = (Except.ok (sn, scope), st1))
    (hunprov : scope.provisioned = false)
    (hhook : beh.prepareScenarioResult sc.scenario = none)
    (hprov : doProvisionScope beh opt scope
        (logEvent (scenarioPhaseEnv sc scope st1).2 (Event.prepareScenario sc.scenario))
      = (scopeP, st4, Except.ok ()))
    (hpre : runSteps beh opt pre (scenarioPhaseEnv sc scope st1).1 scopeP
        { st4 with scopeTracking := jsInsert st4.scopeTracking sn scopeP }
      = (st6, Except.ok ()))
    (hreqb : buildRestCallRequest fs = Except.ok req)
    (hfail : beh.sendRestCallResult fs.step = some m)
    (hclean : (cleanUpScope beh opt scopeP
        (executeStep beh opt (Step.restCall fs)
          (scenarioPhaseEnv sc scope st1).1 scopeP st6).1).2 = Except.ok ()) :
    executeScenario beh opt scenarioDef sc st
      = ((cleanUpScope beh opt scopeP
            (executeStep beh opt (Step.restCall fs)
              (scenarioPhaseEnv sc scope st1).1 scopeP st6).1).1,
         Except.error ("Failed to execute scenario: " ++ sc.scenario ++ ": "
           ++ ("Failed to execute step " ++ fs.step ++ ": " ++ m)))
    ∧ dispatchedSteps (executeScenario beh opt scenarioDef sc st).1.events
      = dispatchedSteps st.events ++ scope.prepareSteps.map Step.name
        ++ pre.map Step.name ++ [fs.step] ++ scopeP.cleanUpSteps.map Step.name
    ∧ executeScenario beh opt scenarioDef { sc with steps := pre ++ [Step.restCall fs] } st
      = executeScenario beh opt scenarioDef sc st := by
  have env := (scenarioPhaseEnv sc scope st1).1
  have hfailStep := executeStep_restCall_fail_eq beh opt fs
    (scenarioPhaseEnv sc scope st1).1 scopeP st6 req m hreqb hfail
  have hstop := runSteps_stop beh opt pre post (Step.restCall fs)
    (scenarioPhaseEnv sc scope st1).1 scopeP
    { st4 with scopeTracking := jsInsert st4.scopeTracking sn scopeP }
    st6 _ _ hpre hfailStep
  have hclean7 : (cleanUpScope beh opt scopeP
      (logEvent { st6 with randCounter := stepEnvCounter (Step.restCall fs) (scenarioPhaseEnv sc scope st1).1 st6.randCounter }
        (Event.sendRestCallRequest fs.step))).2 = Except.ok () := by
    rw [hfailStep] at hclean
    exact hclean
  have hrs1 : runSteps beh opt sc.steps (scenarioPhaseEnv sc scope st1).1 scopeP
      { st4 with scopeTracking := jsInsert st4.scopeTracking sn scopeP }
    = (logEvent { st6 with randCounter := stepEnvCounter (Step.restCall fs) (scenarioPhaseEnv sc scope st1).1 st6.randCounter }
        (Event.sendRestCallRequest fs.step),
       Except.error ("Failed to execute step " ++ fs.step ++ ": " ++ m)) := by
    rw [hsteps]
    exact hstop.1
  have hmain := executeScenario_fail_run beh opt scenarioDef sc st sn scope scopeP
    st1 st4 _ _ hskip hprep hhook hprov hrs1 hclean7
  have hmain' : executeScenario beh opt scenarioDef sc st
      = ((cleanUpScope beh opt scopeP
            (executeStep beh opt (Step.restCall fs)
              (scenarioPhaseEnv sc scope st1).1 scopeP st6).1).1,
         Except.error ("Failed to execute scenario: " ++ sc.scenario ++ ": "
           ++ ("Failed to execute step " ++ fs.step ++ ": " ++ m))) := by
    rw [hmain, hfailStep]
  refine ⟨hmain', ?_, ?_⟩
  · -- the dispatched-steps bookkeeping
    have hev1 : st1.events = st.events := by
      have := prepareScope_events opt sc scenarioDef st
      rw [hprep] at this
      exact this
    have hprovOk : (doProvisionScope beh opt scope
        (logEvent (scenarioPhaseEnv sc scope st1).2 (Event.prepareScenario sc.scenario))).2.2
        = Except.ok () := by
      rw [hprov]
    have hd4 := doProvisionScope_ok_dispatched beh opt scope
      (logEvent (scenarioPhaseEnv sc scope st1).2 (Event.prepareScenario sc.scenario))
      hunprov hprovOk
    rw [hprov] at hd4
    dsimp only [] at hd4
    have hdlog : dispatchedSteps (logEvent (scenarioPhaseEnv sc scope st1).2
        (Event.prepareScenario sc.scenario)).events = dispatchedSteps st.events := by
      simp [logEvent, scenarioPhaseEnv_events, hev1, dispatchedSteps_append,
        dispatchedSteps, Event.dispatchedStep?]
    rw [hdlog] at hd4
    have hpreOk : (runSteps beh opt pre (scenarioPhaseEnv sc scope st1).1 scopeP
        { st4 with scopeTracking := jsInsert st4.scopeTracking sn scopeP }).2
        = Except.ok () := by
      rw [hpre]
    have hd6 := runSteps_ok_dispatched beh opt pre (scenarioPhaseEnv sc scope st1).1 scopeP
      { st4 with scopeTracking := jsInsert st4.scopeTracking sn scopeP } hpreOk
    rw [hpre] at hd6
    dsimp only [] at hd6
    have hwb : ({ st4 with scopeTracking := jsInsert st4.scopeTracking sn scopeP } : RState).events
        = st4.events := rfl
    rw [hwb, hd4] at hd6
    have hd7 : dispatchedSteps (executeStep beh opt (Step.restCall fs)
        (scenarioPhaseEnv sc scope st1).1 scopeP st6).1.events
        = dispatchedSteps st6.events ++ [fs.step] := by
      rw [hfailStep]
      dsimp only []
      simp [logEvent, dispatchedSteps_append, dispatchedSteps, Event.dispatchedStep?]
    have hd8 := cleanUpScope_ok_dispatched beh opt scopeP
      (executeStep beh opt (Step.restCall fs)
        (scenarioPhaseEnv sc scope st1).1 scopeP st6).1 hclean
    rw [hmain']
    dsimp only []
    rw [hd8, hd7, hd6]
  · -- post-independence: the run with post removed takes the same branches
    have hrs2 : runSteps beh opt (pre ++ [Step.restCall fs])
        (scenarioPhaseEnv sc scope st1).1 scopeP
        { st4 with scopeTracking := jsInsert st4.scopeTracking sn scopeP }
      = (logEvent { st6 with randCounter := stepEnvCounter (Step.restCall fs) (scenarioPhaseEnv sc scope st1).1 st6.randCounter }
          (Event.sendRestCallRequest fs.step),
         Except.error ("Failed to execute step " ++ fs.step ++ ": " ++ m)) := hstop.2
    have hmain2 := executeScenario_fail_run beh opt scenarioDef
      { sc with steps := pre ++ [Step.restCall fs] } st sn scope scopeP
      st1 st4 _ _ hskip hprep hhook hprov hrs2 hclean7
    rw [hmain2, hmain]

/-- C6: the error-wrapping discipline of executeScenario, as the code
implements it: a failure raised inside the scenario step loop propagates
wrapped with the scenario's identity (the step's identity having been attached
by executeStep); but a scope-provisioning failure propagates to the caller
with no scenario wrap, and a cleanup failure replaces the pending result, also
with no scenario wrap. -/
theorem executeScenario_error_wrapping (beh : ClientBehavior)
    (opt : RunnerOptions) (scenarioDef : ScenarioDefinition) (sc : Scenario)
    (st : RState) (sn : String) (scope : Scope) (st1 : RState)
    (hprep : prepareScope opt sc scenarioDef st = (Except.ok (sn, scope), st1)) :
    (∀ scopeP st4 st7 em, opt.skipCleanUp = false →
      beh.prepareScenarioResult sc.scenario = none →
      doProvisionScope beh opt scope
          (logEvent (scenarioPhaseEnv sc scope st1).2 (Event.prepareScenario sc.scenario))
        = (scopeP, st4, Except.ok ()) →
      runSteps beh opt sc.steps (scenarioPhaseEnv sc scope st1).1 scopeP
          { st4 with scopeTracking := jsInsert st4.scopeTracking sn scopeP }
        = (st7, Except.error em) →
      (cleanUpScope beh opt scopeP st7).2 = Except.ok () →
      executeScenario beh opt scenarioDef sc st
        = ((cleanUpScope beh opt scopeP st7).1,
           Except.error ("Failed to execute scenario: " ++ sc.scenario ++ ": " ++ em)))
    ∧ (∀ scope2 st4 em, beh.prepareScenarioResult sc.scenario = none →
      doProvisionScope beh opt scope
          (logEvent (scenarioPhaseEnv sc scope st1).2 (Event.prepareScenario sc.scenario))
        = (scope2, st4, Except.error em) →
      executeScenario beh opt scenarioDef sc st = (st4, Except.error em))
    ∧ (∀ scopeP st4 st7 r st8 ce, opt.skipCleanUp = false →
      beh.prepareScenarioResult sc.scenario = none →
      doProvisionScope beh opt scope
          (logEvent (scenarioPhaseEnv sc scope st1).2 (Event.prepareScenario sc.scenario))
        = (scopeP, st4, Except.ok ()) →
      runSteps beh opt sc.steps (scenarioPhaseEnv sc scope st1).1 scopeP
          { st4 with scopeTracking := jsInsert st4.scopeTracking sn scopeP }
        = (st7, r) →
      cleanUpScope beh opt scopeP st7 = (st8, Except.error ce) →
      executeScenario beh opt scenarioDef sc st = (st8, Except.error ce)) := by
  refine ⟨?_, ?_, ?_⟩
  · intro scopeP st4 st7 em hskip hhook hprov hrs hclean
    exact executeScenario_fail_run beh opt scenarioDef sc st sn scope scopeP
      st1 st4 st7 em hskip hprep hhook hprov hrs hclean
  · intro scope2 st4 em hhook hprov
    unfold executeScenario
    rw [hprep]
    dsimp only []
    rw [hhook, hprov]
  · intro scopeP st4 st7 r st8 ce hskip hhook hprov hrs hclean
    unfold executeScenario
    rw [hprep]
    dsimp only []
    rw [hhook, hprov]
    dsimp only []
    rw [hrs]
    dsimp only []
    rw [hskip]
    simp only [Bool.false_eq_true, if_false]
    rw [hclean]

/-- C6 counterexample: a concrete run whose provisioning prepare step fails.
The failure reaches the caller as the bare step wrap, with no
"Failed to execute scenario" prefix naming the scenario, and no cleanup step
runs — refuting the claim that every provisioning failure is wrapped with
the scenario's identity. -/
theorem executeScenario_error_wrapping_cex :
    (executeScenario behPrep optR defP scR {}).2
      = Except.error "Failed to execute step p0: boom"
    ∧ (("Failed to execute scenario: " ++ scR.scenario).data.isPrefixOf
        "Failed to execute step p0: boom".data) = false
    ∧ dispatchedSteps (executeScenario behPrep optR defP scR {}).1.events = ["p0"] := by
  refine ⟨rfl, by decide, rfl⟩

/-- C6 witness: the wrapping theorem applied at the concrete failing-provision
run: the provisioning failure reaches the caller verbatim. -/
theorem executeScenario_error_wrapping_witness :
    (executeScenario behPrep optR defP scR {}).2
      = Except.error "Failed to execute step p0: boom" := by
  have h := executeScenario_error_wrapping behPrep optR defP scR {} "_defaultScope"
    scopeP0 stP1 rfl
  have h2 := h.2.1 provP.1 provP.2.1 "Failed to execute step p0: boom" rfl rfl
  rw [h2]

/-- C1 witness: three invocations on a concrete Dummy scope equal the first,
and leave the scope provisioned. -/
theorem doProvisionScope_runs_once_witness :
    provisionIter behBoom optR 3 scopeR {} = doProvisionScope behBoom optR scopeR {}
    ∧ (provisionIter behBoom optR 3 scopeR {}).1.provisioned = true := by
  have h := doProvisionScope_runs_once behBoom optR scopeR ({} : RState) 3
    (by decide) rfl
  exact ⟨h.1, h.2.1⟩

/-- C9 witness: on a concrete run whose preparation hook rejects, the failure
propagates verbatim and no step is ever dispatched. -/
theorem executeScenario_prefail_no_cleanup_witness :
    (executeScenario behHook optR defR scR {}).2 = Except.error "hookfail"
    ∧ dispatchedSteps (executeScenario behHook optR defR scR {}).1.events = [] := by
  have h := executeScenario_prefail_no_cleanup behHook optR defR scR {} "_defaultScope"
    scopeR stR1 rfl
  have h1 := h.1 "hookfail" rfl
  refine ⟨by rw [h1.1], ?_⟩
  rw [h1.2.1]
  rfl

/-- C2 witness: the step-failure theorem applied at a concrete run — the first
step fails, the result carries the scenario and step wrap. -/
theorem executeScenario_step_failure_cleanup_witness :
    (executeScenario behBoom optR defR scR {}).2
      = Except.error "Failed to execute scenario: scA: Failed to execute step s1: boom" := by
  have h := executeScenario_step_failure_cleanup behBoom optR defR scR {}
    [] [stepR "s2"] { step := "s1" } reqR "boom" "_defaultScope"
    scopeR scopeRP stR1 stR4 stR6
    rfl rfl rfl rfl rfl rfl rfl rfl rfl rfl
  rw [h.1]
  rfl

theorem exceptBind_ok {α β : Type} (x : Except String α) (f : α → Except String β) (b : β)
    (h : x >>= f = Except.ok b) : ∃ a, x = Except.ok a ∧ f a = Except.ok b := by
  cases x with
  | error e => simp [bind, Except.bind] at h
  | ok a => exact ⟨a, rfl, by simpa [bind, Except.bind] using h⟩

theorem setVarScope_varScope (ctx : Ctx) (vs : VariableScope) :
    (ctx.setVarScope vs).varScope = vs := by
  cases h : ctx.scenario <;> simp [Ctx.setVarScope, Ctx.varScope, h]

theorem setVarScope_stepTracking (ctx : Ctx) (vs : VariableScope) :
    (ctx.setVarScope vs).stepTracking = ctx.stepTracking := by
  cases h : ctx.scenario <;> simp [Ctx.setVarScope, h]

theorem setVarScope_scnShare (ctx : Ctx) (vs : VariableScope) :
    scnShare (ctx.setVarScope vs) = scnShare ctx := by
  cases h : ctx.scenario <;> simp [Ctx.setVarScope, scnShare, h]

theorem requireVariableCtx_scnShare (ctx : Ctx) (name : String) :
    scnShare (requireVariableCtx ctx name) = scnShare ctx := by
  unfold requireVariableCtx
  split
  · rfl
  · dsimp only []
    split
    · rfl
    · rw [setVarScope_scnShare]

theorem loadStepArmTemplate_ctx (L : LoaderEnv) (rawStep : RawStepArmTemplate)
    (ctx : Ctx) (st : StepArmTemplate) (ctx2 : Ctx)
    (h : loadStepArmTemplate L rawStep ctx = Except.ok (st, ctx2)) :
    ctx2.stepTracking = ctx.stepTracking ∧ scnShare ctx2 = scnShare ctx := by
  unfold loadStepArmTemplate at h
  obtain ⟨vs, hcv, h⟩ := exceptBind_ok _ _ _ h
  dsimp only [] at h
  split at h
  · simp at h
  · split at h
    · simp only [pure, Except.pure, bind, Except.bind, Except.ok.injEq,
        Prod.mk.injEq] at h
      obtain ⟨-, hctx2⟩ := h
      split at hctx2
      · cases hctx2; exact ⟨rfl, rfl⟩
      · cases hctx2
        exact ⟨setVarScope_stepTracking _ _, setVarScope_scnShare _ _⟩
    · obtain ⟨ctxm, hfold, hrest⟩ := exceptBind_ok _ _ _ h
      have hm : ctxm.stepTracking = ctx.stepTracking ∧ scnShare ctxm = scnShare ctx := by
        refine foldlM_preserve _
          (fun c => c.stepTracking = ctx.stepTracking ∧ scnShare c = scnShare ctx)
          ?_ _ _ _ hfold ⟨rfl, rfl⟩
        intro b a b' hfa hb
        split at hfa
        · simp only [pure, Except.pure, Except.ok.injEq] at hfa
          cases hfa
          exact hb
        · split at hfa
          · simp at hfa
          · simp only [pure, Except.pure, Except.ok.injEq] at hfa
            cases hfa
            exact ⟨(setVarScope_stepTracking _ _).trans hb.1,
                   (setVarScope_scnShare _ _).trans hb.2⟩
      simp only [pure, Except.pure, Except.ok.injEq, Prod.mk.injEq] at hrest
      obtain ⟨-, hctx2⟩ := hrest
      split at hctx2
      · cases hctx2; exact hm
      · cases hctx2
        exact ⟨(setVarScope_stepTracking _ _).trans hm.1,
               (setVarScope_scnShare _ _).trans hm.2⟩

theorem loadStepArmDeploymentScript_ctx (L : LoaderEnv) (rawStep : RawStepArmScript)
    (ctx : Ctx) (st : StepArmTemplate) (ctx2 : Ctx)
    (h : loadStepArmDeploymentScript L rawStep ctx = Except.ok (st, ctx2)) :
    ctx2 = ctx := by
  unfold loadStepArmDeploymentScript at h
  obtain ⟨vs, hcv, h⟩ := exceptBind_ok _ _ _ h
  dsimp only [] at h
  split at h
  · simp at h
  · simp only [pure, Except.pure, Except.ok.injEq, Prod.mk.injEq] at h
    exact h.2.symm

/-- C4: the code's actual duplicate-name discipline: an explicitly named
REST-call step (operation or example form) whose name is already tracked is a
fatal duplicate-name error, but an ARM-template step never consults or extends
the tracked name set — two template steps may share an explicit name. -/
theorem stepName_duplicate_checking (L : LoaderEnv) (ctx : Ctx) :
    (∀ (r : RawStepOperation) (s : String), r.step = some s → s ∈ ctx.stepTracking →
      loadStepRestCall L (Sum.inl r) ctx = Except.error ("Duplicated step name: " ++ s))
    ∧ (∀ (r : RawStepExample) (s : String), r.step = some s → s ∈ ctx.stepTracking →
      loadStepRestCall L (Sum.inr r) ctx = Except.error ("Duplicated step name: " ++ s))
    ∧ (∀ (r : RawStepArmTemplate) (st : StepArmTemplate) (ctx2 : Ctx),
      loadStepArmTemplate L r ctx = Except.ok (st, ctx2) →
      ctx2.stepTracking = ctx.stepTracking) := by
  refine ⟨?_, ?_, ?_⟩
  · intro r s hs hmem
    unfold loadStepRestCall
    dsimp only []
    rw [hs]
    dsimp only []
    rw [if_pos hmem]
    rfl
  · intro r s hs hmem
    unfold loadStepRestCall
    dsimp only []
    rw [hs]
    dsimp only []
    rw [if_pos hmem]
    rfl
  · intro r st ctx2 h
    exact (loadStepArmTemplate_ctx L r ctx st ctx2 h).1

/-- C4 counterexample: a definition whose one scenario compiles two
ARM-template steps both explicitly named dup — compilation succeeds and the
compiled scenario carries both same-named steps, refuting the claim that any
same-named pair is a fatal error. -/
theorem stepName_duplicate_checking_cex :
    (load L4 "f" raw4).map (fun d => d.scenarios.map (fun sc => sc.steps.map Step.name))
      = Except.ok [["dup", "dup"]] := rfl

theorem loadStepRestCall_scnShare (L : LoaderEnv)
    (raw : RawStepOperation ⊕ RawStepExample) (ctx : Ctx)
    (st : StepRestCall) (ctx2 : Ctx)
    (h : loadStepRestCall L raw ctx = Except.ok (st, ctx2)) :
    scnShare ctx2 = scnShare ctx := by
  unfold loadStepRestCall at h
  cases raw with
  | inl r =>
    dsimp only [] at h
    cases hrs : r.step with
    | some s =>
      rw [hrs] at h
      dsimp only [] at h
      split at h
      · simp [bind, Except.bind] at h
      ·
        obtain ⟨u, hpu, h⟩ := exceptBind_ok _ _ _ h
        obtain ⟨vs, hcv, h⟩ := exceptBind_ok _ _ _ h
        split at h
        · simp at h
        · obtain ⟨step2, hfv, h⟩ := exceptBind_ok _ _ _ h
          simp only [pure, Except.pure, Except.ok.injEq, Prod.mk.injEq] at h
          obtain ⟨-, hctx2⟩ := h
          rw [← hctx2]
          refine foldl_preserve _
            (fun (p : StepRestCall × Ctx) => scnShare p.2 = scnShare ctx) ?_ _ _ rfl
          intro b a hb
          split
          · exact hb
          · split
            · exact hb
            · split
              · split
                · exact hb
                · exact hb
              · split
                · rw [requireVariableCtx_scnShare]
                  exact hb
                · exact hb
    | none =>
      rw [hrs] at h
      obtain ⟨u, hpu, h⟩ := exceptBind_ok _ _ _ h
      obtain ⟨vs, hcv, h⟩ := exceptBind_ok _ _ _ h
      split at h
      · simp at h
      · obtain ⟨step2, hfv, h⟩ := exceptBind_ok _ _ _ h
        simp only [pure, Except.pure, Except.ok.injEq, Prod.mk.injEq] at h
        obtain ⟨-, hctx2⟩ := h
        rw [← hctx2]
        refine foldl_preserve _
          (fun (p : StepRestCall × Ctx) => scnShare p.2 = scnShare ctx) ?_ _ _ rfl
        intro b a hb
        split
        · exact hb
        · split
          · exact hb
          · split
            · split
              · exact hb
              · exact hb
            · split
              · rw [requireVariableCtx_scnShare]
                exact hb
              · exact hb
  | inr r =>
    dsimp only [] at h
    cases hrs : r.step with
    | some s =>
      rw [hrs] at h
      dsimp only [] at h
      split at h
      · simp [bind, Except.bind] at h
      ·
        obtain ⟨u, hpu, h⟩ := exceptBind_ok _ _ _ h
        obtain ⟨vs, hcv, h⟩ := exceptBind_ok _ _ _ h
        split at h
        · simp at h
        · split at h
          · split at h
            · simp [bind, Except.bind] at h
            · simp only [pure, Except.pure, bind, Except.bind] at h
              obtain ⟨stepA, hap, h⟩ := exceptBind_ok _ _ _ h
              simp only [pure, Except.pure, Except.ok.injEq, Prod.mk.injEq] at h
              obtain ⟨-, hctx2⟩ := h
              rw [← hctx2]
              rfl
          · split at h
            · simp [bind, Except.bind] at h
            · split at h
              · simp [bind, Except.bind] at h
              · split at h
                · simp [bind, Except.bind] at h
                · simp only [pure, Except.pure, bind, Except.bind] at h
                  obtain ⟨stepA, hap, h⟩ := exceptBind_ok _ _ _ h
                  simp only [pure, Except.pure, Except.ok.injEq, Prod.mk.injEq] at h
                  obtain ⟨-, hctx2⟩ := h
                  rw [← hctx2]
                  rfl
    | none =>
      rw [hrs] at h
      obtain ⟨u, hpu, h⟩ := exceptBind_ok _ _ _ h
      obtain ⟨vs, hcv, h⟩ := exceptBind_ok _ _ _ h
      split at h
      · simp at h
      · split at h
        · split at h
          · simp [bind, Except.bind] at h
          · simp only [pure, Except.pure, bind, Except.bind] at h
            obtain ⟨stepA, hap, h⟩ := exceptBind_ok _ _ _ h
            simp only [pure, Except.pure, Except.ok.injEq, Prod.mk.injEq] at h
            obtain ⟨-, hctx2⟩ := h
            rw [← hctx2]
            rfl
        · split at h
          · simp [bind, Except.bind] at h
          · split at h
            · simp [bind, Except.bind] at h
            · split at h
              · simp [bind, Except.bind] at h
              · simp only [pure, Except.pure, bind, Except.bind] at h
                obtain ⟨stepA, hap, h⟩ := exceptBind_ok _ _ _ h
                simp only [pure, Except.pure, Except.ok.injEq, Prod.mk.injEq] at h
                obtain ⟨-, hctx2⟩ := h
                rw [← hctx2]
                rfl


theorem loadStep_scnShare (L : LoaderEnv) (rawStep : RawStep) (ctx : Ctx)
    (step : Step) (ctx2 : Ctx)
    (h : loadStep L rawStep ctx = Except.ok (step, ctx2)) :
    scnShare ctx2 = scnShare ctx := by
  unfold loadStep at h
  rcases rawStep with r | r | r | r
  · dsimp only [] at h
    cases hinner : loadStepRestCall L (Sum.inl r) ctx with
    | error e => rw [hinner] at h; simp [Except.map] at h
    | ok p =>
      rw [hinner] at h
      obtain ⟨s0, ctxm⟩ := p
      simp only [Except.map, pure, Except.pure, Except.ok.injEq, Prod.mk.injEq] at h
      obtain ⟨-, hctx2⟩ := h
      rw [← hctx2]
      exact (setVarScope_scnShare _ _).trans
        (loadStepRestCall_scnShare L (Sum.inl r) ctx s0 ctxm hinner)
  · dsimp only [] at h
    cases hinner : loadStepRestCall L (Sum.inr r) ctx with
    | error e => rw [hinner] at h; simp [Except.map] at h
    | ok p =>
      rw [hinner] at h
      obtain ⟨s0, ctxm⟩ := p
      simp only [Except.map, pure, Except.pure, Except.ok.injEq, Prod.mk.injEq] at h
      obtain ⟨-, hctx2⟩ := h
      rw [← hctx2]
      exact (setVarScope_scnShare _ _).trans
        (loadStepRestCall_scnShare L (Sum.inr r) ctx s0 ctxm hinner)
  · dsimp only [] at h
    cases hinner : loadStepArmTemplate L r ctx with
    | error e => rw [hinner] at h; simp [Except.map] at h
    | ok p =>
      rw [hinner] at h
      obtain ⟨s0, ctxm⟩ := p
      simp only [Except.map, pure, Except.pure, Except.ok.injEq, Prod.mk.injEq] at h
      obtain ⟨-, hctx2⟩ := h
      rw [← hctx2]
      exact (setVarScope_scnShare _ _).trans
        (loadStepArmTemplate_ctx L r ctx s0 ctxm hinner).2
  · dsimp only [] at h
    cases hinner : loadStepArmDeploymentScript L r ctx with
    | error e => rw [hinner] at h; simp [Except.map] at h
    | ok p =>
      rw [hinner] at h
      obtain ⟨s0, ctxm⟩ := p
      simp only [Except.map, pure, Except.pure, Except.ok.injEq, Prod.mk.injEq] at h
      obtain ⟨-, hctx2⟩ := h
      rw [← hctx2]
      have he : ctxm = ctx := loadStepArmDeploymentScript_ctx L r ctx s0 ctxm hinner
      exact (setVarScope_scnShare ctxm _).trans (congrArg scnShare he)

/-- C10: compiling a raw scenario that omits the shareScope flag sets
shareScope to true, so such a scenario resolves at run time to the shared
Runtime Scope named "_defaultScope". -/
theorem loadScenario_default_shareScope (L : LoaderEnv) (raw : RawScenario)
    (ctx : Ctx) (sc : Scenario) (ctx2 : Ctx)
    (hshare : raw.shareScope = none)
    (hload : loadScenario L raw ctx = Except.ok (sc, ctx2)) :
    sc.shareScope = true
    ∧ ∀ (opt : RunnerOptions) (scenarioDef : ScenarioDefinition) (st : RState)
        (n : String) (scope : Scope) (st2 : RState),
        prepareScope opt sc scenarioDef st = (Except.ok (n, scope), st2) →
        n = "_defaultScope" := by
  have h1 : sc.shareScope = true := by
    unfold loadScenario at hload
    obtain ⟨vs, hcv, hload⟩ := exceptBind_ok _ _ _ hload
    dsimp only [] at hload
    rw [hshare] at hload
    obtain ⟨ctxF, hfold, hrest⟩ := exceptBind_ok _ _ _ hload
    have hP : scnShare ctxF = some true := by
      refine foldlM_preserve _ (fun c => scnShare c = some true) ?_ _ _ _ hfold rfl
      intro b a b' hfa hb
      obtain ⟨p, hstep, hfa⟩ := exceptBind_ok _ _ _ hfa
      obtain ⟨s0, ctxm⟩ := p
      have hm : scnShare ctxm = scnShare b := loadStep_scnShare _ _ _ _ _ hstep
      dsimp only [] at hfa
      split at hfa
      · rename_i scm heq
        simp only [pure, Except.pure, Except.ok.injEq] at hfa
        rw [← hfa]
        have : scnShare ctxm = some scm.shareScope := by
          unfold scnShare
          rw [heq]
          rfl
        have hsm : some scm.shareScope = some true := by
          rw [← this, hm, hb]
        simp only [Option.some.injEq] at hsm
        show scnShare _ = some true
        unfold scnShare
        simp [hsm]
      · simp only [pure, Except.pure, Except.ok.injEq] at hfa
        rw [← hfa]
        rw [hm, hb]
    split at hrest
    · rename_i scm heq
      simp only [pure, Except.pure, Except.ok.injEq, Prod.mk.injEq] at hrest
      obtain ⟨hsc, -⟩ := hrest
      unfold scnShare at hP
      rw [heq] at hP
      simp only [Option.map_some', Option.some.injEq] at hP
      rw [← hsc]
      exact hP
    · simp at hrest
  refine ⟨h1, ?_⟩
  intro opt scenarioDef st n scope st2 hps
  exact (prepareScope_share opt sc scenarioDef st n scope st2 h1 hps).1

/-- C10 witness: the default-shareScope theorem applied at a concrete raw
scenario with the flag omitted. -/
theorem loadScenario_default_shareScope_witness : sc10.shareScope = true := by
  have h := loadScenario_default_shareScope {} {} ctx10 sc10 ctx10b rfl rfl
  exact h.1

/-- C3: what loadStepArmTemplate actually does with a defaultless, unbound
string parameter of the template payload: it appends the name to the owning
scope's required-variable list unconditionally — once per referencing step and
with no membership check — so a second step referencing the same template
appends the name again. -/
theorem loadStepArmTemplate_appends_required (L : LoaderEnv)
    (rawStep : RawStepArmTemplate) (ctx : Ctx) (p : String)
    (pd : ArmTemplateParamDef) (payload : ArmTemplatePayload)
    (hvars : rawStep.variables = none)
    (hfile : jsLookup L.armTemplateFiles
        (pathJoin (pathDirName ctx.scenarioDef._filePath) rawStep.armTemplate)
      = some payload)
    (hparams : payload.parameters = some [(p, pd)])
    (houts : payload.outputs = none)
    (hdef : pd.defaultValue = none)
    (htype : pd.type = "string")
    (hv2 : jsLookup ctx.varScope.variables p = none)
    (hv3 : jsLookup ctx.scenarioDef.variables p = none) :
    (loadStepArmTemplate L rawStep ctx).map (fun q => q.2.varScope.requiredVariables)
      = Except.ok (ctx.varScope.requiredVariables ++ [p]) := by
  have hcv : convertVariables none = Except.ok ({} : VariableScope) := rfl
  unfold loadStepArmTemplate
  rw [hvars, hcv]
  simp only [bind, Except.bind]
  rw [hfile]
  dsimp only []
  rw [hparams]
  dsimp only []
  simp only [List.foldlM_cons, List.foldlM_nil, bind, Except.bind, pure, Except.pure]
  have hnil : jsLookup ([] : List (String × Variable)) p = none := rfl
  simp only [hdef, hnil, hv2, hv3, Option.isSome_none, Bool.or_self, Bool.or_false,
    Bool.false_or, if_false]
  simp only [Bool.false_eq_true, if_false, htype]
  have hne : (decide (("string" : String) ≠ "string")) = false := by decide
  simp only [hne, Bool.false_and, Bool.false_eq_true, if_false]
  rw [houts]
  dsimp only []
  simp only [Except.map]
  rw [setVarScope_varScope]

/-- C3 counterexample: a definition whose one scenario deploys the same
template (one defaultless, unbound string parameter p) from two steps — after
compilation the scenario's required-variable list carries p twice, refuting
the claim that such a parameter appears exactly once. -/
theorem loadStepArmTemplate_appends_required_cex :
    (load L3 "f" raw3).map (fun d => d.scenarios.map (fun sc => sc.requiredVariables))
      = Except.ok [["subscriptionId", "location", "p", "p"]]
    ∧ (["subscriptionId", "location", "p", "p"].count "p") = 2 := ⟨rfl, rfl⟩

/-- C3 witness: the append theorem applied at a context that already requires
p — the list gains a second p. -/
theorem loadStepArmTemplate_appends_required_witness :
    (loadStepArmTemplate L3 raw3w ctx3w).map (fun q => q.2.varScope.requiredVariables)
      = Except.ok ["p", "p"] := by
  have h := loadStepArmTemplate_appends_required L3 raw3w ctx3w "p"
    { type := "string" } { parameters := some [("p", { type := "string" })] }
    rfl rfl rfl rfl rfl rfl rfl rfl
  rw [h]
  rfl

/-- C5: the fixture-step api-version behavior the code implements: after the
fixture's parameters are copied verbatim, the api-version parameter is forced
to the operation's pinned version only when the fixture supplies a truthy
api-version value; when the fixture omits api-version (or supplies a falsy
value) the copied parameters are kept as they are, pinned version or not. -/
theorem loadStepRestCall_example_api_version (L : LoaderEnv) (ctx : Ctx)
    (s ef : String) (content : ExampleFileContent) (opId : String)
    (operation : Operation)
    (hmem : s ∉ ctx.stepTracking)
    (hex : jsLookup L.exampleFiles
        (pathJoin (pathDirName ctx.scenarioDef._filePath) ef) = some content)
    (hopid : content.operationId = some opId)
    (hop : jsLookup L.operationsMap opId = some operation) :
    ((jsGet content.parameters "api-version").truthy = false →
      (loadStepRestCall L (Sum.inr { step := some s, exampleFile := ef }) ctx).map
          (fun q => q.1.parameters)
        = Except.ok content.parameters)
    ∧ (∀ ver, (jsGet content.parameters "api-version").truthy = true →
      jsLookup L.apiVersionsMap opId = some ver →
      (loadStepRestCall L (Sum.inr { step := some s, exampleFile := ef }) ctx).map
          (fun q => jsGet q.1.parameters "api-version")
        = Except.ok (VarValue.str ver)) := by
  have hcv : convertVariables none = Except.ok ({} : VariableScope) := rfl
  constructor
  · intro htr
    unfold loadStepRestCall
    dsimp only []
    rw [if_neg hmem, hcv]
    simp only [bind, Except.bind, pure, Except.pure]
    rw [hex]
    dsimp only []
    rw [hopid]
    dsimp only []
    rw [hop]
    dsimp only []
    cases hio : L.includeOperation
    · simp only [Bool.false_eq_true, if_false]
      simp only [htr, Bool.false_eq_true, if_false]
      rfl
    · simp only [if_true]
      simp only [htr, Bool.false_eq_true, if_false]
      rfl
  · intro ver htr hpin
    unfold loadStepRestCall
    dsimp only []
    rw [if_neg hmem, hcv]
    simp only [bind, Except.bind, pure, Except.pure]
    rw [hex]
    dsimp only []
    rw [hopid]
    dsimp only []
    rw [hop]
    dsimp only []
    have hkey : ∀ (m : List (String × VarValue)),
        jsGet (jsInsert m "api-version" (VarValue.str ver)) "api-version"
          = VarValue.str ver := by
      intro m
      unfold jsGet
      rw [jsLookup_insert_self]
      rfl
    cases hio : L.includeOperation
    · simp only [Bool.false_eq_true, if_false]
      simp only [htr, if_true]
      rw [hpin]
      unfold applyPatches
      dsimp only []
      simp only [pure, Except.pure, bind, Except.bind, Except.map,
        Option.map_some', Option.getD_some]
      rw [hkey]
    · simp only [if_true]
      simp only [htr, if_true]
      rw [hpin]
      unfold applyPatches
      dsimp only []
      simp only [pure, Except.pure, bind, Except.bind, Except.map,
        Option.map_some', Option.getD_some]
      rw [hkey]

/-- C5 counterexample: a fixture that omits api-version while the version
index pins one for the operation — the compiled step keeps the copied
parameters untouched (api-version absent), refuting the claim that the
compiled api-version always equals the pinned version. -/
theorem loadStepRestCall_example_api_version_cex :
    (loadStepRestCall L5 (Sum.inr { step := some "s", exampleFile := "ex.json" }) ctx5).map
        (fun q => jsGet q.1.parameters "api-version") = Except.ok VarValue.undefined
    ∧ jsLookup L5.apiVersionsMap "op1" = some "2021-01-01" := ⟨rfl, rfl⟩

/-- C5 witness: the api-version theorem applied at a fixture that supplies a
truthy stale value — the compiled step carries the pinned version. -/
theorem loadStepRestCall_example_api_version_witness :
    (loadStepRestCall L5b (Sum.inr { step := some "s", exampleFile := "ex.json" }) ctx5).map
        (fun q => jsGet q.1.parameters "api-version")
      = Except.ok (VarValue.str "2021-01-01") := by
  have h := loadStepRestCall_example_api_version L5b ctx5 "s" "ex.json"
    { operationId := some "op1", parameters := [("api-version", VarValue.str "junk")] }
    "op1" {} (by decide) rfl rfl rfl
  exact h.2 "2021-01-01" rfl rfl

end Oav
